import Mathlib

/-!
# Verification of the libdivecomputer ringbuffer extraction core

Shallow embedding of the two device-family extractors of this repository:

* Family B (Suunto style): `suunto_common2.c` — packet transfer with retry,
  chunked memory reader, fingerprint handling, and the linked-trailer
  ringbuffer dive extractor `suunto_common2_device_foreach`.
* Family A (Oceanic style): the ATOM2 backend — packet transfer with retry,
  page-aligned memory reader, ringbuffer reader, and the paired-ringbuffer
  extractor `oceanic_atom2_read_dives`.
* The `uwatec_memomouse` record parser's GASMIX field decoder.

Machine integers are modelled as `Nat` with explicit truncation where the C
code relies on wrap-around (checksums).  Device memory and the extractor's
scratch buffer are modelled as total functions `Nat → Nat` holding byte
values; C's uninitialised malloc bytes are modelled as `0` (no theorem below
depends on uninitialised contents).  The serial transport is abstracted by
per-attempt oracles for the transfer layer, and by an always-successful
memory function for the layers above it (the extractor-level claims are
conditional on reads succeeding).  Loops are written with an explicit fuel
argument mirroring the C loop structure; the fuel supplied by the top-level
wrappers dominates the iteration count whenever the C loop terminates, and
fuel exhaustion corresponds to the (unreachable for validated inputs)
non-terminating executions of the C loops.
-/

namespace Divecomputer

/-- `dc_status_t` error codes used by the Family-B (suunto_common2) code. -/
inductive DcStatus where
  | success
  | unsupported
  | invalidargs
  | nomemory
  | dataformat
  | timeout
  | protocol
  | ioerror
  deriving DecidableEq, Repr

/-- Status codes used by the Family-A (oceanic atom2) code
(`OCEANIC_SUCCESS`, `OCEANIC_ERROR_*`). -/
inductive OStatus where
  | success
  | error
  | errorMemory
  | errorInputOutput
  | errorTimeout
  | errorProtocol
  deriving DecidableEq, Repr

/-- `#define MAXRETRIES 2` (same value in both family backends). -/
def MAXRETRIES : Nat := 2

/-- `#define SZ_PACKET 0x78` (suunto_common2.c). -/
def SZ_PACKET : Nat := 0x78

/-- `#define SZ_MINIMUM 8` (suunto_common2.c). -/
def SZ_MINIMUM : Nat := 8

/-- `#define FP_OFFSET 0x15` (suunto_common2.c). -/
def FP_OFFSET : Nat := 0x15

/-- Modelled from the spec: `array_uint16_le` decodes a 16-bit little-endian
value from two bytes (`array.c` is not under src; the spec calls the fields
"16-bit little-endian"). -/
def array_uint16_le (b0 b1 : Nat) : Nat := b0 + 256 * b1

/-- Modelled from the spec: `ringbuffer_distance` (`ringbuffer.c` is not
under src).  Per spec §4.7: returns `b − a` if `b > a`, else
`(end − begin) − (a − b)` if `a > b`; when `a == b` it returns `end − begin`
if the `mode` argument is true ("full") and `0` if it is false ("empty").
The Family-A macros use the two-argument form, i.e. `mode = false`. -/
def ringbuffer_distance (a b : Nat) (mode : Bool) (rbBegin rbEnd : Nat) : Nat :=
  if a < b then b - a
  else if b < a then (rbEnd - rbBegin) - (a - b)
  else if mode then rbEnd - rbBegin else 0

/-- Read `n` consecutive bytes of a byte store `f` starting at `start`. -/
def bufSlice (f : Nat → Nat) (start n : Nat) : List Nat :=
  (List.range n).map (fun i => f (start + i))

/-- Store the list `bs` into the byte store `f` starting at position
`start` (models `memcpy` into the scratch buffer). -/
def writeList (f : Nat → Nat) (start : Nat) (bs : List Nat) : Nat → Nat :=
  fun i => if h : start ≤ i ∧ i - start < bs.length then bs.get ⟨i - start, h.2⟩ else f i

/-! ## Packet transfer with retry

`suunto_common2_transfer` (suunto_common2.c) and `oceanic_atom2_transfer`
(the atom2 backend).  The underlying packet exchange is abstracted by an
oracle giving the outcome of each attempt; the functions return the final
status together with the number of attempts performed. -/

/-- Loop body of `suunto_common2_transfer`: call the backend `packet`
function; on success return; on a status other than `TIMEOUT`/`PROTOCOL`
return it; otherwise retry unless `nretries` has reached `MAXRETRIES`
(`if (nretries++ >= MAXRETRIES) return rc;`).  The structural `fuel`
argument bounds the recursion depth; the wrapper passes `MAXRETRIES + 1`,
which the `nretries` guard keeps from ever being exhausted. -/
def suunto_common2_transfer_go (pk : Nat → DcStatus) :
    Nat → Nat → Nat → DcStatus × Nat
  | 0, attempt, _ => (pk attempt, attempt + 1)
  | fuel + 1, attempt, nretries =>
    let rc := pk attempt
    if rc = .success then (rc, attempt + 1)
    else if rc ≠ .timeout ∧ rc ≠ .protocol then (rc, attempt + 1)
    else if nretries ≥ MAXRETRIES then (rc, attempt + 1)
    else suunto_common2_transfer_go pk fuel (attempt + 1) (nretries + 1)

/-- `suunto_common2_transfer`: returns the final `dc_status_t` and the
number of calls made to the backend `packet` function.  (The
`asize >= size + 4` assertion and the NULL-backend check concern arguments
not modelled here.) -/
def suunto_common2_transfer (pk : Nat → DcStatus) : DcStatus × Nat :=
  suunto_common2_transfer_go pk (MAXRETRIES + 1) 0 0

/-- `oceanic_atom2_checksum`: additive 8-bit checksum
(`crc += data[i]` on an `unsigned char`). -/
def oceanic_atom2_checksum (data : List Nat) (init : Nat) : Nat :=
  data.foldl (fun crc b => (crc + b) % 256) (init % 256)

/-- Outcome of one `serial_read` of `asize` bytes inside
`oceanic_atom2_transfer`: an I/O error (`rc == -1`), a short read
(`rc != asize`), or a full answer buffer. -/
inductive AtomAttempt where
  | ioFailure
  | shortRead (n : Nat)
  | full (answer : Nat → Nat)

/-- Loop body of `oceanic_atom2_transfer`: send the command (the send path
never fails: `oceanic_atom2_send` ignores the transport result), read the
answer; a `-1` read returns `OCEANIC_ERROR_IO` at once; a short read
retries while `i < MAXRETRIES` and otherwise returns
`OCEANIC_ERROR_TIMEOUT`; a full answer is checked against the expected
header byte (`0xA5` during handshake, else `0x5A`) and the additive
checksum of `answer[1 .. asize−1)`, a mismatch of either returning
`OCEANIC_ERROR_PROTOCOL` (with no retry). -/
def oceanic_atom2_transfer_go (att : Nat → AtomAttempt) (asize : Nat)
    (handshake : Bool) : Nat → Nat → OStatus × Nat
  | 0, i => (.errorTimeout, i + 1)
  | fuel + 1, i =>
    match att i with
    | .ioFailure => (.errorInputOutput, i + 1)
    | .shortRead _ =>
        if i < MAXRETRIES then oceanic_atom2_transfer_go att asize handshake fuel (i + 1)
        else (.errorTimeout, i + 1)
    | .full answer =>
        let header := if handshake then 0xA5 else 0x5A
        if answer 0 ≠ header then (.errorProtocol, i + 1)
        else
          let crc := answer (asize - 1)
          let ccrc := oceanic_atom2_checksum
            ((List.range (asize - 2)).map (fun j => answer (1 + j))) 0x00
          if crc ≠ ccrc then (.errorProtocol, i + 1)
          else (.success, i + 1)

/-- `oceanic_atom2_transfer`: returns the final status and the number of
command/answer attempts performed.  The structural fuel `MAXRETRIES + 1`
covers the at most `MAXRETRIES + 1` iterations of the C `for (i = 0;; ++i)`
loop (the loop repeats only while `i < MAXRETRIES`). -/
def oceanic_atom2_transfer (att : Nat → AtomAttempt) (asize : Nat)
    (handshake : Bool) : OStatus × Nat :=
  oceanic_atom2_transfer_go att asize handshake (MAXRETRIES + 1) 0

/-! ## Family-B memory reader and fingerprint -/

/-- Result of `suunto_common2_device_read`: the list of
`(address, count)` read commands issued (one per packet, the values placed
in bytes 3–5 of each command frame) and the concatenated payload. -/
structure S2ReadResult where
  cmds : List (Nat × Nat)
  bytes : List Nat
  deriving DecidableEq, Repr

/-- Loop of `suunto_common2_device_read`: while `nbytes < size`, issue one
read command for `len = min (size − nbytes) SZ_PACKET` bytes at `address`,
append the payload, and advance `nbytes`, `address` by `len`.  The
underlying transfer is modelled as successful, returning the device memory
at the requested range. -/
def s2ReadLoop (mem : Nat → Nat) : Nat → Nat → Nat → Nat → S2ReadResult
  | 0, _, _, _ => ⟨[], []⟩
  | fuel + 1, address, nbytes, size =>
    if nbytes < size then
      let len0 := size - nbytes
      let len := if len0 > SZ_PACKET then SZ_PACKET else len0
      let rest := s2ReadLoop mem fuel (address + len) (nbytes + len) size
      ⟨(address, len) :: rest.cmds, bufSlice mem address len ++ rest.bytes⟩
    else ⟨[], []⟩

/-- `suunto_common2_device_read (abstract, address, data, size)`: the data
transmission is split in packages of maximum `SZ_PACKET` bytes.  The
structural fuel `size` dominates the chunk count (each chunk transfers at
least one byte). -/
def suunto_common2_device_read (mem : Nat → Nat) (address size : Nat) : S2ReadResult :=
  s2ReadLoop mem size address 0 size

/-- `suunto_common2_device_set_fingerprint (abstract, data, size)`.  The
stored fingerprint is a byte array of fixed width `fpSize`
(`sizeof (device->fingerprint)`; the concrete width lives in
suunto_common2.h, which is not under src, so the width is kept as a
parameter).  A nonzero `size` different from the width is rejected with
`DC_STATUS_INVALIDARGS`; `size == width` copies `data`; `size == 0` clears
the stored fingerprint to zero bytes. -/
def suunto_common2_device_set_fingerprint (fpSize : Nat) (stored : List Nat)
    (data : Nat → Nat) (size : Nat) : DcStatus × List Nat :=
  if size ≠ 0 ∧ size ≠ fpSize then (.invalidargs, stored)
  else if size ≠ 0 then (.success, bufSlice data 0 fpSize)
  else (.success, List.replicate fpSize 0)

/-! ## Family-B ringbuffer dive extractor (`suunto_common2_device_foreach`)

The traversal is instrumented with a trace of observable events: every
`suunto_common2_device_read` issued by the packet loop, every callback
invocation (with the exact byte slices handed to the callback), every
fingerprint-match stop, every skipped incomplete dive, and a `finished`
marker for the normal exit of the `while (remaining)` loop (the
`free (data); return status;` at the end of the function).  Error exits and
early stops return without the marker. -/

/-- One observable event of the Family-B traversal.  A `called` entry
records the write cursor `offset`, the surplus byte count `available`, the
dive size, the decoded `prev`/`next` pointers, the whole dive region
`buffer[offset+available .. offset+available+size)` (instrumentation), the
bytes handed to the callback, the fingerprint slice, and the callback's
return value. -/
inductive S2Trace where
  | readPkt (addr len : Nat)
  | called (offset available size prev next : Nat)
      (region dive fpslice : List Nat) (cbres : Bool)
  | fphit (offset available size : Nat) (fpslice : List Nat)
  | skipped (offset available size prev next : Nat)
  | finished
  deriving DecidableEq, Repr

/-- State threaded through the packet-filling inner loop of
`suunto_common2_device_foreach`. -/
structure S2FillState where
  nbytes : Nat
  address : Nat
  offset : Nat
  data : Nat → Nat
  reads : List S2Trace

/-- Inner packet loop (`while (nbytes < size)`): handle the ringbuffer wrap
point, compute the package length `len` (largest possible, clipped at the
begin of the ringbuffer and at the end of the profile data), move the
cursors back by `len`, extend the read to the left by
`extra = SZ_MINIMUM − len` when `len < SZ_MINIMUM`, read the package into
the scratch buffer, and advance `nbytes`.  `fuel` dominates the iteration
count (each iteration consumes at least one of the `size − nbytes` missing
bytes whenever the ringbuffer is nonempty). -/
def s2Fill (mem : Nat → Nat) (B E remaining size : Nat) :
    Nat → S2FillState → S2FillState
  | 0, st => st
  | fuel + 1, st =>
    if st.nbytes < size then
      let address0 := if st.address = B then E else st.address
      let len1 := SZ_PACKET
      let len2 := if B + len1 > address0 then address0 - B else len1
      let len := if st.nbytes + len2 > remaining then remaining - st.nbytes else len2
      let offset := st.offset - len
      let address := address0 - len
      let extra := if len < SZ_MINIMUM then SZ_MINIMUM - len else 0
      let rd := suunto_common2_device_read mem (address - extra) (len + extra)
      let data := writeList st.data (offset - extra) rd.bytes
      s2Fill mem B E remaining size fuel
        ⟨st.nbytes + len, address, offset, data,
          st.reads ++ [.readPkt (address - extra) (len + extra)]⟩
    else st

/-- State of the outer `while (remaining)` loop of
`suunto_common2_device_foreach`. -/
structure S2LoopState where
  remaining : Nat
  current : Nat
  previous : Nat
  address : Nat
  offset : Nat
  available : Nat
  data : Nat → Nat
  status : DcStatus

/-- Result of one iteration of the outer dive loop: either the function
returns (`halt`, with its status and the events of this iteration), or the
loop continues with an updated state (`next`, with this iteration's
events). -/
inductive S2StepResult where
  | halt (status : DcStatus) (tr : List S2Trace)
  | next (st2 : S2LoopState) (pre : List S2Trace)

/-- One iteration of the dive loop of `suunto_common2_device_foreach`
(taken when `remaining != 0`): compute the dive size, reject impossible
sizes (`size < 4 || size > remaining`), fill the buffer, decode the
`prev`/`next` pointers from the 4 bytes at `p = data + offset + available`,
validate them and the chain linkage, stop with success on a fingerprint
match, invoke the callback with `(p + 4, size − 4)` (stopping with success
if it returns false), latch a deferred `DC_STATUS_DATAFORMAT` for a
self-linked (incomplete) dive, and step to the older dive
(`previous = current; current = prev;`). -/
def s2Iter (mem : Nat → Nat) (B E : Nat) (fp : List Nat) (model : Nat)
    (cb : List Nat → List Nat → Bool) (st : S2LoopState) : S2StepResult :=
  let size := ringbuffer_distance st.current st.previous true B E
  if size < 4 ∨ size > st.remaining then .halt .dataformat []
  else
    let f := s2Fill mem B E st.remaining size size
      ⟨st.available, st.address, st.offset, st.data, []⟩
    let remaining := st.remaining - size
    let available := f.nbytes - size
    let p := f.offset + available
    let prev := array_uint16_le (f.data p) (f.data (p + 1))
    let next := array_uint16_le (f.data (p + 2)) (f.data (p + 3))
    if prev < B ∨ prev ≥ E ∨ next < B ∨ next ≥ E then .halt .dataformat f.reads
    else if next ≠ st.previous ∧ next ≠ st.current then .halt .dataformat f.reads
    else if next ≠ st.current then
      let fpOffset := if model = 0x15 then FP_OFFSET + 6 else FP_OFFSET
      let fpslice := bufSlice f.data (p + fpOffset) fp.length
      if fpslice = fp then
        .halt .success (f.reads ++ [.fphit f.offset available size fpslice])
      else
        let region := bufSlice f.data p size
        let dive := bufSlice f.data (p + 4) (size - 4)
        let res := cb dive fpslice
        if res then
          .next ⟨remaining, prev, st.current, f.address, f.offset, available,
              f.data, st.status⟩
            (f.reads ++ [.called f.offset available size prev next
              region dive fpslice true])
        else
          .halt .success (f.reads ++ [.called f.offset available size prev next
            region dive fpslice false])
    else
      .next ⟨remaining, prev, st.current, f.address, f.offset, available,
          f.data, .dataformat⟩
        (f.reads ++ [.skipped f.offset available size prev next])

/-- Outer dive loop of `suunto_common2_device_foreach`
(`while (remaining)`), iterating `s2Iter` and concatenating the event
traces. -/
def s2Loop (mem : Nat → Nat) (B E : Nat) (fp : List Nat) (model : Nat)
    (cb : List Nat → List Nat → Bool) :
    Nat → S2LoopState → DcStatus × List S2Trace
  | 0, st => (st.status, [])
  | fuel + 1, st =>
    if st.remaining = 0 then (st.status, [.finished])
    else
      match s2Iter mem B E fp model cb st with
      | .halt status tr => (status, tr)
      | .next st2 pre =>
          let r := s2Loop mem B E fp model cb fuel st2
          (r.1, pre ++ r.2)

/-- `suunto_common2_device_foreach`.  `B`/`E` are the layout's
`rb_profile_begin`/`rb_profile_end`; `mem` is the device memory (reads are
modelled as successful); `model` is `devinfo.model`, i.e. byte 0 of the
version answer; `fp` is the stored fingerprint (its length is
`sizeof (device->fingerprint)`).  Reads the 8-byte header at `0x0190`,
decodes `last`/`count`/`end`/`begin` as 16-bit little-endian values,
validates `last`, `end` and `begin` against `[B, E)`, computes the total
profile byte count and runs the traversal loop on a zero-initialised
scratch buffer. -/
def suunto_common2_device_foreach (B E : Nat) (mem : Nat → Nat) (model : Nat)
    (fp : List Nat) (cb : List Nat → List Nat → Bool) : DcStatus × List S2Trace :=
  let header := (suunto_common2_device_read mem 0x0190 8).bytes
  let last := array_uint16_le (header.getD 0 0) (header.getD 1 0)
  let count := array_uint16_le (header.getD 2 0) (header.getD 3 0)
  let endPtr := array_uint16_le (header.getD 4 0) (header.getD 5 0)
  let beginPtr := array_uint16_le (header.getD 6 0) (header.getD 7 0)
  if last < B ∨ last ≥ E ∨ endPtr < B ∨ endPtr ≥ E ∨
      beginPtr < B ∨ beginPtr ≥ E then
    (.dataformat, [])
  else
    let remaining := ringbuffer_distance beginPtr endPtr (count != 0) B E
    s2Loop mem B E fp model cb (remaining + 1)
      ⟨remaining, last, endPtr, endPtr, remaining + SZ_MINIMUM, 0,
        fun _ => 0, .success⟩

/-! ## Family-A (Oceanic ATOM2) memory reader and extractor -/

/-- `#define RB_LOGBOOK_EMPTY 0x0230`. -/
def RB_LOGBOOK_EMPTY : Nat := 0x0230

/-- `#define RB_LOGBOOK_BEGIN 0x0240`. -/
def RB_LOGBOOK_BEGIN : Nat := 0x0240

/-- `#define RB_LOGBOOK_END 0x0A40`. -/
def RB_LOGBOOK_END : Nat := 0x0A40

/-- `#define RB_PROFILE_BEGIN 0x0A50`. -/
def RB_PROFILE_BEGIN : Nat := 0x0A50

/-- `#define RB_PROFILE_END 0xFFF0`. -/
def RB_PROFILE_END : Nat := 0xFFF0

/-- Modelled from the spec: `OCEANIC_ATOM2_PACKET_SIZE` is defined in
oceanic.h, which is not under src.  The logbook entry stride used by the
extractor is `packet_size / 2` and the entries decoded via
`PT_PROFILE_FIRST`/`PT_PROFILE_LAST` and the 8-byte `memcpy` are 8 bytes
wide, fixing the packet size at 16. -/
def OCEANIC_ATOM2_PACKET_SIZE : Nat := 16

/-- Loop of `oceanic_atom2_read_memory`: while `nbytes < size`, read one
package and copy `OCEANIC_ATOM2_PACKET_SIZE` bytes (the `memcpy` always
copies a full packet) into the destination buffer at `dst + nbytes`,
advancing `address` and `nbytes` by the packet size.  The underlying
transfer is modelled as successful.  The C code asserts
`address % 16 == 0 && size % 16 == 0`. -/
def oceanicReadMemLoop (mem : Nat → Nat) (dst : Nat) :
    Nat → Nat → Nat → Nat → (Nat → Nat) → Nat → Nat
  | 0, _, _, _, buf => buf
  | fuel + 1, address, nbytes, size, buf =>
    if nbytes < size then
      let buf1 := writeList buf (dst + nbytes)
        (bufSlice mem address OCEANIC_ATOM2_PACKET_SIZE)
      oceanicReadMemLoop mem dst fuel (address + OCEANIC_ATOM2_PACKET_SIZE)
        (nbytes + OCEANIC_ATOM2_PACKET_SIZE) size buf1
    else buf

/-- `oceanic_atom2_read_memory (device, address, data, size)`, writing the
payload into `buf` starting at index `dst`.  The structural fuel `size`
dominates the packet count. -/
def oceanic_atom2_read_memory (mem : Nat → Nat) (address : Nat)
    (buf : Nat → Nat) (dst size : Nat) : Nat → Nat :=
  oceanicReadMemLoop mem dst size address 0 size buf

/-- `oceanic_atom2_read_ringbuffer`: a read crossing the ringbuffer's `end`
is split into the two linear reads `[address, end)` and
`[begin, begin + (size − (end − address)))`, concatenated in that order.
The C code asserts `begin <= address < end` and `size <= end − begin`. -/
def oceanic_atom2_read_ringbuffer (mem : Nat → Nat) (address : Nat)
    (buf : Nat → Nat) (dst size rbBegin rbEnd : Nat) : Nat → Nat :=
  if address + size > rbEnd then
    let a := rbEnd - address
    let b := size - a
    let buf1 := oceanic_atom2_read_memory mem address buf dst a
    oceanic_atom2_read_memory mem rbBegin buf1 (dst + a) b
  else
    oceanic_atom2_read_memory mem address buf dst size

/-- Per-entry loop of `oceanic_atom2_read_dives`
(`for (i = 0; i < logbook_count; ++i)`): decode the profile pointers of the
logbook entry at `cur` (`PT_PROFILE_FIRST`/`PT_PROFILE_LAST`, packed as
`first = x[5] | ((x[6] & 0x0F) << 8)`, `last = (x[6] >> 4) | (x[7] << 4)`,
both scaled by the packet size), read the profile slice with
`read_ringbuffer` at offset 8 of a fresh buffer, prepend the 8-byte logbook
entry, invoke the callback with `(profile, profile_len + 8)` — whose return
value the code does not inspect — and step the cursor back by
`packet_size / 2`.  Returns the list of `(bytes, callback result)` pairs. -/
def aDiveLoop (mem : Nat → Nat) (logbooks : Nat → Nat)
    (cb : List Nat → Bool) : Nat → Nat → List (List Nat × Bool)
  | 0, _cur => []
  | n + 1, cur =>
    let e := bufSlice logbooks cur 8
    let profileFirst := (e.getD 5 0 + e.getD 6 0 % 16 * 256) * OCEANIC_ATOM2_PACKET_SIZE
    let profileLast := (e.getD 6 0 / 16 + e.getD 7 0 * 16) * OCEANIC_ATOM2_PACKET_SIZE
    let profileLen := ringbuffer_distance profileFirst profileLast false
      RB_PROFILE_BEGIN RB_PROFILE_END + OCEANIC_ATOM2_PACKET_SIZE
    let profile0 := oceanic_atom2_read_ringbuffer mem profileFirst (fun _ => 0) 8
      profileLen RB_PROFILE_BEGIN RB_PROFILE_END
    let profile := writeList profile0 0 e
    let divebytes := bufSlice profile 0 (profileLen + 8)
    let res := cb divebytes
    (divebytes, res) :: aDiveLoop mem logbooks cb n (cur - 8)

/-- `oceanic_atom2_read_dives`: read the pointers block at `0x0040`, decode
`logbook_first`/`logbook_last` (`PT_LOGBOOK_FIRST`/`PT_LOGBOOK_LAST`), stop
with success and no callbacks when both equal `RB_LOGBOOK_EMPTY`, compute
`logbook_count = RB_LOGBOOK_DISTANCE (first, last) / (packet_size/2) + 1`,
read the page-aligned logbook range into a linearised buffer and traverse
it backwards starting from the entry of `logbook_last`. -/
def oceanic_atom2_read_dives (mem : Nat → Nat) (cb : List Nat → Bool) :
    OStatus × List (List Nat × Bool) :=
  let ptrBuf := oceanic_atom2_read_memory mem 0x0040 (fun _ => 0) 0
    OCEANIC_ATOM2_PACKET_SIZE
  let pointers := bufSlice ptrBuf 0 OCEANIC_ATOM2_PACKET_SIZE
  let first := pointers.getD 4 0 + pointers.getD 5 0 * 256
  let last := pointers.getD 6 0 + pointers.getD 7 0 * 256
  if first = RB_LOGBOOK_EMPTY ∧ last = RB_LOGBOOK_EMPTY then (.success, [])
  else
    let count := ringbuffer_distance first last false RB_LOGBOOK_BEGIN RB_LOGBOOK_END /
      (OCEANIC_ATOM2_PACKET_SIZE / 2) + 1
    let pageOffset := first % OCEANIC_ATOM2_PACKET_SIZE
    let pageFirst := first / OCEANIC_ATOM2_PACKET_SIZE * OCEANIC_ATOM2_PACKET_SIZE
    let pageLast := last / OCEANIC_ATOM2_PACKET_SIZE * OCEANIC_ATOM2_PACKET_SIZE
    let pageLen := ringbuffer_distance pageFirst pageLast false
      RB_LOGBOOK_BEGIN RB_LOGBOOK_END + OCEANIC_ATOM2_PACKET_SIZE
    let logbooks := oceanic_atom2_read_ringbuffer mem pageFirst (fun _ => 0) 0
      pageLen RB_LOGBOOK_BEGIN RB_LOGBOOK_END
    let cur := pageOffset + (count - 1) * (OCEANIC_ATOM2_PACKET_SIZE / 2)
    (.success, aDiveLoop mem logbooks cb count cur)

/-! ## uwatec_memomouse record parser: GASMIX field decode

The arithmetic of `uwatec_memomouse_parser_get_field` is performed on C
`double`s; it is modelled here over `ℚ`, which represents every quantity
involved (`d / 100.0`, `1.0 − oxygen − helium`) exactly. -/

/-- A `gasmix_t` value. -/
structure Gasmix where
  oxygen : ℚ
  helium : ℚ
  nitrogen : ℚ
  deriving DecidableEq, Repr

/-- The `FIELD_TYPE_GASMIX` branch of `uwatec_memomouse_parser_get_field`:
fails with `DC_STATUS_DATAFORMAT` when `size < 18` (modelled as `none`);
otherwise classifies the model byte `data[3]` (`& 0xF0` tests for nitrox
`0xF0` and oxygen `0xA0` families), computes the variable header length,
sets `helium = 0`, decodes the oxygen fraction from `data[18 + 23]` when
the input is long enough (`size >= header + 18`) — as a percentage byte for
oxygen models, as the nibble expansion `20 + 2·n` (or 21 when the nibble is
zero) for nitrox models, and as the fixed 21% otherwise or when the input
is too short — and sets `nitrogen = 1.0 − oxygen − helium`.  Byte reads
mask with `% 256` (C reads of `unsigned char`). -/
def uwatec_memomouse_parser_get_field_gasmix (data : Nat → Nat) (size : Nat) :
    Option Gasmix :=
  if size < 18 then none
  else
    let model := data 3 % 256
    let isNitrox := decide (model / 16 * 16 = 0xF0)
    let isOxygen := decide (model / 16 * 16 = 0xA0)
    let header := 22 + (if isNitrox then 2 else 0) + (if isOxygen then 3 else 0)
    let helium : ℚ := 0
    let oxygen : ℚ :=
      if header + 18 ≤ size then
        if isOxygen then (data (18 + 23) % 256 : ℚ) / 100
        else if isNitrox then
          (if data (18 + 23) % 16 ≠ 0 then (20 : ℚ) + 2 * (data (18 + 23) % 16)
           else 21) / 100
        else 21 / 100
      else 21 / 100
    some ⟨oxygen, helium, 1 - oxygen - helium⟩

/-! ## Concrete device memories used as witnesses and counterexamples -/

/-- Byte store built from an association list (unlisted addresses read 0). -/
def memOf (l : List (Nat × Nat)) : Nat → Nat := fun a =>
  match l.find? (fun p => p.1 == a) with
  | some p => p.2
  | none => 0

/-- Family-B memory with a 0x40-byte profile ringbuffer `[0x100, 0x140)`
holding two 0x20-byte dives `d1 = [0x120, 0x140)` (newest) and
`d2 = [0x100, 0x120)`; header `last = 0x120`, `count = 2`, `end = 0x100`,
`begin = 0x100` (the dive chain wraps at the ringbuffer end).  Each dive's
first 4 bytes hold its `prev`/`next` pointers; the last 4 bytes of `d1`'s
region are `0xAB 0xAB 0xAB 0xAB`, which do not decode to a valid pointer
pair. -/
def cxB1mem : Nat → Nat := memOf [
  (0x190, 0x20), (0x191, 0x01), (0x192, 0x02), (0x193, 0x00),
  (0x194, 0x00), (0x195, 0x01), (0x196, 0x00), (0x197, 0x01),
  (0x120, 0x00), (0x121, 0x01), (0x122, 0x00), (0x123, 0x01),
  (0x135, 0x40), (0x136, 0x41), (0x137, 0x42), (0x138, 0x43),
  (0x139, 0x44), (0x13A, 0x45), (0x13B, 0x46),
  (0x13C, 0xAB), (0x13D, 0xAB), (0x13E, 0xAB), (0x13F, 0xAB),
  (0x100, 0x20), (0x101, 0x01), (0x102, 0x20), (0x103, 0x01),
  (0x115, 0x50), (0x116, 0x51), (0x117, 0x52), (0x118, 0x53),
  (0x119, 0x54), (0x11A, 0x55), (0x11B, 0x56)]

/-- Family-B memory with a 0x60-byte profile ringbuffer `[0x100, 0x160)`
holding three 0x20-byte dives `d1 = [0x140, 0x160)` (newest),
`d2 = [0x120, 0x140)`, `d3 = [0x100, 0x120)`, all normally chained;
the fingerprint slices (offset 0x15 into each dive) are
`0x61..0x67`, `0x71..0x77` and `0x11..0x17` respectively. -/
def cxB4mem : Nat → Nat := memOf [
  (0x190, 0x40), (0x191, 0x01), (0x192, 0x03), (0x193, 0x00),
  (0x194, 0x00), (0x195, 0x01), (0x196, 0x00), (0x197, 0x01),
  (0x140, 0x20), (0x141, 0x01), (0x142, 0x00), (0x143, 0x01),
  (0x155, 0x61), (0x156, 0x62), (0x157, 0x63), (0x158, 0x64),
  (0x159, 0x65), (0x15A, 0x66), (0x15B, 0x67),
  (0x120, 0x00), (0x121, 0x01), (0x122, 0x40), (0x123, 0x01),
  (0x135, 0x71), (0x136, 0x72), (0x137, 0x73), (0x138, 0x74),
  (0x139, 0x75), (0x13A, 0x76), (0x13B, 0x77),
  (0x100, 0x40), (0x101, 0x01), (0x102, 0x20), (0x103, 0x01),
  (0x115, 0x11), (0x116, 0x12), (0x117, 0x13), (0x118, 0x14),
  (0x119, 0x15), (0x11A, 0x16), (0x11B, 0x17)]

/-- The fingerprint slice of dive `d3` of `cxB4mem`. -/
def cxB4fp : List Nat := [0x11, 0x12, 0x13, 0x14, 0x15, 0x16, 0x17]

/-- `cxB4mem` with dive `d2` self-linked (`next = 0x120 = current`),
marking it as an incomplete dive. -/
def cxB5mem : Nat → Nat := memOf [
  (0x190, 0x40), (0x191, 0x01), (0x192, 0x03), (0x193, 0x00),
  (0x194, 0x00), (0x195, 0x01), (0x196, 0x00), (0x197, 0x01),
  (0x140, 0x20), (0x141, 0x01), (0x142, 0x00), (0x143, 0x01),
  (0x155, 0x61), (0x156, 0x62), (0x157, 0x63), (0x158, 0x64),
  (0x159, 0x65), (0x15A, 0x66), (0x15B, 0x67),
  (0x120, 0x00), (0x121, 0x01), (0x122, 0x20), (0x123, 0x01),
  (0x135, 0x71), (0x136, 0x72), (0x137, 0x73), (0x138, 0x74),
  (0x139, 0x75), (0x13A, 0x76), (0x13B, 0x77),
  (0x100, 0x40), (0x101, 0x01), (0x102, 0x20), (0x103, 0x01),
  (0x115, 0x11), (0x116, 0x12), (0x117, 0x13), (0x118, 0x14),
  (0x119, 0x15), (0x11A, 0x16), (0x11B, 0x17)]

/-- Family-B memory whose header has `count = 0` — far below
`rb_profile_begin = 0x100` — while `last = 0x120`, `end = 0x100` and
`begin = 0x120` are all inside `[0x100, 0x140)`; the ringbuffer holds the
single dive `[0x120, 0x140)`. -/
def cxB2mem : Nat → Nat := memOf [
  (0x190, 0x20), (0x191, 0x01), (0x192, 0x00), (0x193, 0x00),
  (0x194, 0x00), (0x195, 0x01), (0x196, 0x20), (0x197, 0x01),
  (0x120, 0x00), (0x121, 0x01), (0x122, 0x00), (0x123, 0x01),
  (0x135, 0x40), (0x136, 0x41), (0x137, 0x42), (0x138, 0x43),
  (0x139, 0x44), (0x13A, 0x45), (0x13B, 0x46)]

/-- Family-B memory whose header `end` field decodes to `0x0000`, outside
the profile ringbuffer `[0x100, 0x140)` (scenario S6 of the spec). -/
def cxB6mem : Nat → Nat := memOf [
  (0x190, 0x20), (0x191, 0x01), (0x192, 0x01), (0x193, 0x00),
  (0x194, 0x00), (0x195, 0x00), (0x196, 0x00), (0x197, 0x01)]

/-- Family-A memory with two logbook entries at `0x0240` and `0x0248`
(`logbook_first = 0x0240`, `logbook_last = 0x0248`), both pointing at the
one-packet profile `[0x0A50, 0x0A60)`. -/
def cxAmem : Nat → Nat := memOf [
  (0x44, 0x40), (0x45, 0x02), (0x46, 0x48), (0x47, 0x02),
  (0x245, 0xA5), (0x246, 0x50), (0x247, 0x0A),
  (0x24D, 0xA5), (0x24E, 0x50), (0x24F, 0x0A),
  (0xA50, 0x90), (0xA51, 0x91), (0xA52, 0x92), (0xA53, 0x93),
  (0xA54, 0x94), (0xA55, 0x95), (0xA56, 0x96), (0xA57, 0x97),
  (0xA58, 0x98), (0xA59, 0x99), (0xA5A, 0x9A), (0xA5B, 0x9B),
  (0xA5C, 0x9C), (0xA5D, 0x9D), (0xA5E, 0x9E), (0xA5F, 0x9F)]

/-- Family-A memory whose logbook pointers both hold the empty sentinel
`0x0230`. -/
def cxAemptyMem : Nat → Nat := memOf [
  (0x44, 0x30), (0x45, 0x02), (0x46, 0x30), (0x47, 0x02)]

/-! ## Trace predicates and basic lemmas -/

/-- Whether a trace event is a skipped incomplete dive. -/
def S2Trace.isSkipped : S2Trace → Bool
  | .skipped _ _ _ _ _ => true
  | _ => false

/-- Whether a trace event is the normal-completion marker. -/
def S2Trace.isFinished : S2Trace → Bool
  | .finished => true
  | _ => false

/-- Per-event well-formedness of a Family-B trace, relative to the stored
fingerprint `fp`: every packet read requests at least `SZ_MINIMUM` bytes;
every callback event carries a dive region of exactly `size ≥ 4` bytes
whose first four bytes decode (little-endian) to the recorded
`prev`/`next` pointers, hands the callback the region minus its first four
bytes (`size − 4` bytes), and has a fingerprint slice different from `fp`;
every fingerprint-stop event carries a slice equal to `fp`. -/
def entryOk (fp : List Nat) : S2Trace → Prop
  | .readPkt _ n => SZ_MINIMUM ≤ n
  | .called _ _ size prev next region dive fpslice _ =>
      4 ≤ size ∧ region.length = size ∧
      dive = region.drop 4 ∧ dive.length = size - 4 ∧
      prev = array_uint16_le (region.getD 0 0) (region.getD 1 0) ∧
      next = array_uint16_le (region.getD 2 0) (region.getD 3 0) ∧
      fpslice ≠ fp
  | .fphit _ _ _ fpslice => fpslice = fp
  | .skipped _ _ _ _ _ => True
  | .finished => True

/-- Early-stop discipline of a Family-B trace: a fingerprint stop or a
callback returning false is the last event, and the run then reports
success. -/
def goodTrace (st : DcStatus) : List S2Trace → Prop
  | [] => True
  | e :: rest =>
      (match e with
        | .fphit _ _ _ _ => rest = [] ∧ st = .success
        | .called _ _ _ _ _ _ _ _ cbres => cbres = false → rest = [] ∧ st = .success
        | _ => True) ∧ goodTrace st rest

/-- Whether a trace event is a callback invocation. -/
def S2Trace.isCalled : S2Trace → Bool
  | .called _ _ _ _ _ _ _ _ _ => true
  | _ => false

/-- The `offset` cursor recorded in a callback event (0 otherwise). -/
def S2Trace.offsetOf : S2Trace → Nat
  | .called o _ _ _ _ _ _ _ _ => o
  | _ => 0

/-- The `available` surplus recorded in a callback event (0 otherwise). -/
def S2Trace.availableOf : S2Trace → Nat
  | .called _ a _ _ _ _ _ _ _ => a
  | _ => 0

/-- The decoded `prev` pointer recorded in a callback event (0 otherwise). -/
def S2Trace.prevOf : S2Trace → Nat
  | .called _ _ _ p _ _ _ _ _ => p
  | _ => 0

/-- The decoded `next` pointer recorded in a callback event (0 otherwise). -/
def S2Trace.nextOf : S2Trace → Nat
  | .called _ _ _ _ n _ _ _ _ => n
  | _ => 0

/-- The dive region recorded in a callback event ([] otherwise). -/
def S2Trace.regionOf : S2Trace → List Nat
  | .called _ _ _ _ _ r _ _ _ => r
  | _ => []

/-- The bytes handed to the callback in a callback event ([] otherwise). -/
def S2Trace.diveOf : S2Trace → List Nat
  | .called _ _ _ _ _ _ d _ _ => d
  | _ => []


/-- The statuses that `suunto_common2_transfer` retries
(`DC_STATUS_TIMEOUT` and `DC_STATUS_PROTOCOL`). -/
def s2Retryable (rc : DcStatus) : Prop := rc = .timeout ∨ rc = .protocol

instance (rc : DcStatus) : Decidable (s2Retryable rc) := by
  unfold s2Retryable; infer_instance

/-- A well-formed Family-A answer frame for `asize = 3`: header `0x5A`,
payload byte 7, additive checksum 7. -/
def c3goodAnswer : Nat → Nat := fun j => if j = 0 then 0x5A else 7

/-- Family-A attempt oracle: the first attempt yields a full answer with a
wrong header byte (a `ProtocolError`), all later attempts yield a
well-formed answer. -/
def c3att : Nat → AtomAttempt := fun i =>
  if i = 0 then AtomAttempt.full (fun j => if j = 0 then 0 else 7)
  else AtomAttempt.full c3goodAnswer

theorem bufSlice_length (f : Nat → Nat) (s n : Nat) : (bufSlice f s n).length = n := by
  simp [bufSlice]

theorem bufSlice_succ (f : Nat → Nat) (s n : Nat) :
    bufSlice f s (n + 1) = f s :: bufSlice f (s + 1) n := by
  simp only [bufSlice, List.range_succ_eq_map, List.map_cons, List.map_map, Nat.add_zero]
  refine congrArg _ (List.map_congr_left fun i _ => ?_)
  simp only [Function.comp_apply]
  congr 1
  omega

theorem bufSlice_getD (f : Nat → Nat) (s n i : Nat) (h : i < n) :
    (bufSlice f s n).getD i 0 = f (s + i) := by
  induction i generalizing s n with
  | zero =>
      cases n with
      | zero => omega
      | succ m => rw [bufSlice_succ]; simp
  | succ i ih =>
      cases n with
      | zero => omega
      | succ m =>
          rw [bufSlice_succ, List.getD_cons_succ, ih (s + 1) m (by omega)]
          congr 1
          omega

theorem bufSlice_drop (f : Nat → Nat) (s n k : Nat) :
    (bufSlice f s n).drop k = bufSlice f (s + k) (n - k) := by
  induction k generalizing s n with
  | zero => simp
  | succ k ih =>
      cases n with
      | zero => simp [bufSlice]
      | succ m =>
          rw [bufSlice_succ, List.drop_succ_cons, ih (s + 1) m]
          congr 1 <;> omega

theorem goodTrace_append_reads (st : DcStatus) (A B : List S2Trace)
    (hA : ∀ e ∈ A, ∃ a n, e = S2Trace.readPkt a n) (hB : goodTrace st B) :
    goodTrace st (A ++ B) := by
  induction A with
  | nil => simpa using hB
  | cons e rest ih =>
      obtain ⟨a, n, rfl⟩ := hA e (by simp)
      exact ⟨trivial, ih (fun e he => hA e (by simp [he]))⟩

theorem goodTrace_split_fphit (st : DcStatus) (pre post : List S2Trace)
    (o a s : Nat) (f : List Nat)
    (h : goodTrace st (pre ++ S2Trace.fphit o a s f :: post)) :
    post = [] ∧ st = .success := by
  induction pre with
  | nil => exact h.1
  | cons e rest ih => exact ih h.2

theorem goodTrace_split_called_false (st : DcStatus) (pre post : List S2Trace)
    (o a s p n : Nat) (region dive fps : List Nat)
    (h : goodTrace st (pre ++ S2Trace.called o a s p n region dive fps false :: post)) :
    post = [] ∧ st = .success := by
  induction pre with
  | nil => exact h.1 rfl
  | cons e rest ih => exact ih h.2

/-- A packet read extended by the `min_read` compensation requests at
least `SZ_MINIMUM` bytes. -/
theorem min_read_pad (len : Nat) :
    SZ_MINIMUM ≤ len + (if len < SZ_MINIMUM then SZ_MINIMUM - len else 0) := by
  simp only [SZ_MINIMUM]
  split <;> omega

/-- Every event appended to the read trace by the packet-filling loop is a
`readPkt` requesting at least `SZ_MINIMUM` bytes. -/
theorem s2Fill_reads (mem : Nat → Nat) (B E remaining size : Nat) :
    ∀ (fuel : Nat) (st : S2FillState),
      ∀ e ∈ (s2Fill mem B E remaining size fuel st).reads,
        e ∈ st.reads ∨ ∃ a n, e = S2Trace.readPkt a n ∧ SZ_MINIMUM ≤ n := by
  intro fuel
  induction fuel with
  | zero => intro st e he; exact Or.inl he
  | succ fuel ih =>
      intro st e he
      simp only [s2Fill] at he
      by_cases h : st.nbytes < size
      · rw [if_pos h] at he
        rcases ih _ e he with hmem | hnew
        · rcases List.mem_append.mp hmem with h1 | h2
          · exact Or.inl h1
          · refine Or.inr ?_
            simp only [List.mem_singleton] at h2
            subst h2
            exact ⟨_, _, rfl, min_read_pad _⟩
        · exact Or.inr hnew
      · rw [if_neg h] at he
        exact Or.inl he

/-- An all-reads trace satisfies the early-stop discipline. -/
theorem goodTrace_reads (st : DcStatus) (A : List S2Trace)
    (hA : ∀ e ∈ A, ∃ a n, e = S2Trace.readPkt a n) : goodTrace st A := by
  induction A with
  | nil => trivial
  | cons e rest ih =>
      obtain ⟨a, n, rfl⟩ := hA e (by simp)
      exact ⟨trivial, ih (fun e he => hA e (by simp [he]))⟩

/-- An all-reads trace contains no completion marker and no skip event. -/
theorem reads_any (A : List S2Trace)
    (hA : ∀ e ∈ A, ∃ a n, e = S2Trace.readPkt a n) :
    A.any S2Trace.isFinished = false ∧ A.any S2Trace.isSkipped = false := by
  induction A with
  | nil => simp
  | cons e rest ih =>
      obtain ⟨a, n, rfl⟩ := hA e (by simp)
      have := ih (fun e he => hA e (by simp [he]))
      simp [S2Trace.isFinished, S2Trace.isSkipped, this.1, this.2]

/-- The read events of one iteration's packet fill are all `readPkt`
entries requesting at least `SZ_MINIMUM` bytes. -/
theorem s2Fill_reads_nil (mem : Nat → Nat) (B E remaining size fuel : Nat)
    (available address offset : Nat) (data : Nat → Nat) :
    ∀ e ∈ (s2Fill mem B E remaining size fuel
        ⟨available, address, offset, data, []⟩).reads,
      ∃ a n, e = S2Trace.readPkt a n ∧ SZ_MINIMUM ≤ n := by
  intro e he
  rcases s2Fill_reads mem B E remaining size fuel _ e he with h | h
  · exact absurd h (List.not_mem_nil e)
  · exact h

/-- What one iteration of the dive loop guarantees when it halts the
traversal: the status is one of the two explicit returns, the iteration's
events satisfy `entryOk` and the early-stop discipline, and no completion
marker and no skip event is produced. -/
theorem s2Iter_halt_spec (mem : Nat → Nat) (B E : Nat) (fp : List Nat) (model : Nat)
    (cb : List Nat → List Nat → Bool) (st : S2LoopState) (s : DcStatus)
    (tr : List S2Trace) (h : s2Iter mem B E fp model cb st = .halt s tr) :
    goodTrace s tr ∧ (∀ e ∈ tr, entryOk fp e) ∧
    tr.any S2Trace.isFinished = false ∧ tr.any S2Trace.isSkipped = false := by
  have hR := s2Fill_reads_nil mem B E st.remaining
    (ringbuffer_distance st.current st.previous true B E)
    (ringbuffer_distance st.current st.previous true B E)
    st.available st.address st.offset st.data
  simp only [s2Iter] at h
  generalize hsz : ringbuffer_distance st.current st.previous true B E = sz at h hR
  generalize hF : s2Fill mem B E st.remaining sz sz
    ⟨st.available, st.address, st.offset, st.data, []⟩ = F at h hR
  have hRR : ∀ e ∈ F.reads, ∃ a n, e = S2Trace.readPkt a n := by
    intro e he; obtain ⟨a, n, he2, _⟩ := hR e he; exact ⟨a, n, he2⟩
  have hRN : ∀ e ∈ F.reads, ∃ a n, e = S2Trace.readPkt a n ∧ SZ_MINIMUM ≤ n := hR
  clear hR hF hsz
  generalize hp : F.offset + (F.nbytes - sz) = p at h
  generalize hprev : array_uint16_le (F.data p) (F.data (p + 1)) = prev at h
  generalize hnext : array_uint16_le (F.data (p + 2)) (F.data (p + 3)) = next at h
  generalize hfps : bufSlice F.data
    (p + if model = 0x15 then FP_OFFSET + 6 else FP_OFFSET) fp.length = fps at h
  split at h
  case isTrue h4 =>
      injection h with h1 h2
      subst h1; subst h2
      exact ⟨trivial, fun e he => absurd he (List.not_mem_nil e), by simp, by simp⟩
  case isFalse h4 =>
  split at h
  case isTrue hptr =>
      injection h with h1 h2
      subst h1; subst h2
      exact ⟨goodTrace_reads _ _ hRR,
        fun e he => by obtain ⟨a, n, rfl, hn⟩ := hRN e he; exact hn,
        (reads_any _ hRR).1, (reads_any _ hRR).2⟩
  case isFalse hptr =>
  split at h
  case isTrue hlink =>
      injection h with h1 h2
      subst h1; subst h2
      exact ⟨goodTrace_reads _ _ hRR,
        fun e he => by obtain ⟨a, n, rfl, hn⟩ := hRN e he; exact hn,
        (reads_any _ hRR).1, (reads_any _ hRR).2⟩
  case isFalse hlink =>
  split at h
  case isTrue hnotself =>
      split at h
      case isTrue hfp =>
          injection h with h1 h2
          subst h1; subst h2
          refine ⟨goodTrace_append_reads _ _ _ hRR ⟨⟨rfl, rfl⟩, trivial⟩,
            ?_, ?_, ?_⟩
          · intro e he
            rcases List.mem_append.mp he with h1 | h1
            · obtain ⟨a, n, rfl, hn⟩ := hRN e h1; exact hn
            · simp only [List.mem_singleton] at h1
              subst h1
              exact hfp
          · rw [List.any_append, (reads_any _ hRR).1]
            simp [S2Trace.isFinished]
          · rw [List.any_append, (reads_any _ hRR).2]
            simp [S2Trace.isSkipped]
      case isFalse hfp =>
          split at h
          case isTrue hres =>
              exact absurd h (by simp)
          case isFalse hres =>
              injection h with h1 h2
              subst h1; subst h2
              refine ⟨goodTrace_append_reads _ _ _ hRR
                ⟨fun _ => ⟨rfl, rfl⟩, trivial⟩, ?_, ?_, ?_⟩
              · intro e he
                rcases List.mem_append.mp he with h1 | h1
                · obtain ⟨a, n, rfl, hn⟩ := hRN e h1; exact hn
                · simp only [List.mem_singleton] at h1
                  subst h1
                  refine ⟨by omega, bufSlice_length _ _ _,
                    (bufSlice_drop _ _ _ _).symm, bufSlice_length _ _ _, ?_, ?_, hfp⟩
                  · rw [bufSlice_getD _ _ _ 0 (by omega),
                      bufSlice_getD _ _ _ 1 (by omega), Nat.add_zero]
                    exact hprev.symm
                  · rw [bufSlice_getD _ _ _ 2 (by omega),
                      bufSlice_getD _ _ _ 3 (by omega)]
                    exact hnext.symm
              · rw [List.any_append, (reads_any _ hRR).1]
                simp [S2Trace.isFinished]
              · rw [List.any_append, (reads_any _ hRR).2]
                simp [S2Trace.isSkipped]
  case isFalse hnotself =>
      exact absurd h (by simp)

/-- What one iteration of the dive loop guarantees when the traversal
continues: the iteration's events satisfy `entryOk`, contain no completion
marker, preserve the early-stop discipline of whatever trace follows, and
the deferred-error latch either is passed through unchanged (no skip
event) or is set to `DC_STATUS_DATAFORMAT` together with a skip event. -/
theorem s2Iter_next_spec (mem : Nat → Nat) (B E : Nat) (fp : List Nat) (model : Nat)
    (cb : List Nat → List Nat → Bool) (st st2 : S2LoopState)
    (pre : List S2Trace) (h : s2Iter mem B E fp model cb st = .next st2 pre) :
    (∀ e ∈ pre, entryOk fp e) ∧
    pre.any S2Trace.isFinished = false ∧
    (∀ (s2 : DcStatus) (rest : List S2Trace),
        goodTrace s2 rest → goodTrace s2 (pre ++ rest)) ∧
    ((st2.status = st.status ∧ pre.any S2Trace.isSkipped = false) ∨
      (st2.status = .dataformat ∧ pre.any S2Trace.isSkipped = true)) := by
  have hR := s2Fill_reads_nil mem B E st.remaining
    (ringbuffer_distance st.current st.previous true B E)
    (ringbuffer_distance st.current st.previous true B E)
    st.available st.address st.offset st.data
  simp only [s2Iter] at h
  generalize hsz : ringbuffer_distance st.current st.previous true B E = sz at h hR
  generalize hF : s2Fill mem B E st.remaining sz sz
    ⟨st.available, st.address, st.offset, st.data, []⟩ = F at h hR
  have hRR : ∀ e ∈ F.reads, ∃ a n, e = S2Trace.readPkt a n := by
    intro e he; obtain ⟨a, n, he2, _⟩ := hR e he; exact ⟨a, n, he2⟩
  have hRN : ∀ e ∈ F.reads, ∃ a n, e = S2Trace.readPkt a n ∧ SZ_MINIMUM ≤ n := hR
  clear hR hF hsz
  generalize hp : F.offset + (F.nbytes - sz) = p at h
  generalize hprev : array_uint16_le (F.data p) (F.data (p + 1)) = prev at h
  generalize hnext : array_uint16_le (F.data (p + 2)) (F.data (p + 3)) = next at h
  generalize hfps : bufSlice F.data
    (p + if model = 0x15 then FP_OFFSET + 6 else FP_OFFSET) fp.length = fps at h
  split at h
  case isTrue h4 => exact absurd h (by simp)
  case isFalse h4 =>
  split at h
  case isTrue hptr => exact absurd h (by simp)
  case isFalse hptr =>
  split at h
  case isTrue hlink => exact absurd h (by simp)
  case isFalse hlink =>
  split at h
  case isTrue hnotself =>
      split at h
      case isTrue hfp => exact absurd h (by simp)
      case isFalse hfp =>
          split at h
          case isFalse hres => exact absurd h (by simp)
          case isTrue hres =>
              injection h with h1 h2
              subst h1; subst h2
              refine ⟨?_, ?_, ?_, ?_⟩
              · intro e he
                rcases List.mem_append.mp he with h1 | h1
                · obtain ⟨a, n, rfl, hn⟩ := hRN e h1; exact hn
                · simp only [List.mem_singleton] at h1
                  subst h1
                  refine ⟨by omega, bufSlice_length _ _ _,
                    (bufSlice_drop _ _ _ _).symm, bufSlice_length _ _ _, ?_, ?_, hfp⟩
                  · rw [bufSlice_getD _ _ _ 0 (by omega),
                      bufSlice_getD _ _ _ 1 (by omega), Nat.add_zero]
                    exact hprev.symm
                  · rw [bufSlice_getD _ _ _ 2 (by omega),
                      bufSlice_getD _ _ _ 3 (by omega)]
                    exact hnext.symm
              · rw [List.any_append, (reads_any _ hRR).1]
                simp [S2Trace.isFinished]
              · intro s2 rest hrest
                rw [List.append_assoc, List.singleton_append]
                exact goodTrace_append_reads _ _ _ hRR
                  ⟨fun hc => Bool.noConfusion hc, hrest⟩
              · refine Or.inl ⟨rfl, ?_⟩
                rw [List.any_append, (reads_any _ hRR).2]
                simp [S2Trace.isSkipped]
  case isFalse hnotself =>
      injection h with h1 h2
      subst h1; subst h2
      refine ⟨?_, ?_, ?_, ?_⟩
      · intro e he
        rcases List.mem_append.mp he with h1 | h1
        · obtain ⟨a, n, rfl, hn⟩ := hRN e h1; exact hn
        · simp only [List.mem_singleton] at h1
          subst h1
          trivial
      · rw [List.any_append, (reads_any _ hRR).1]
        simp [S2Trace.isFinished]
      · intro s2 rest hrest
        rw [List.append_assoc, List.singleton_append]
        exact goodTrace_append_reads _ _ _ hRR ⟨trivial, hrest⟩
      · refine Or.inr ⟨rfl, ?_⟩
        rw [List.any_append, (reads_any _ hRR).2]
        simp [S2Trace.isSkipped]


/-- Central invariant of the Family-B traversal loop: the produced trace
satisfies the per-event facts (`entryOk`) and the early-stop discipline
(`goodTrace`), and — whenever the loop ran to normal completion
(`finished` marker present) — the returned status is
`DC_STATUS_DATAFORMAT` exactly when the deferred-error latch was already
set on entry or some dive was skipped as incomplete. -/
theorem s2Loop_spec (mem : Nat → Nat) (B E : Nat) (fp : List Nat) (model : Nat)
    (cb : List Nat → List Nat → Bool) :
    ∀ (fuel : Nat) (st : S2LoopState),
      st.status = .success ∨ st.status = .dataformat →
      goodTrace (s2Loop mem B E fp model cb fuel st).1
          (s2Loop mem B E fp model cb fuel st).2 ∧
      (∀ e ∈ (s2Loop mem B E fp model cb fuel st).2, entryOk fp e) ∧
      ((s2Loop mem B E fp model cb fuel st).2.any S2Trace.isFinished = true →
        (((s2Loop mem B E fp model cb fuel st).1 = .dataformat ↔
          (st.status = .dataformat ∨
            (s2Loop mem B E fp model cb fuel st).2.any S2Trace.isSkipped = true)) ∧
          ((s2Loop mem B E fp model cb fuel st).1 = .success ∨
            (s2Loop mem B E fp model cb fuel st).1 = .dataformat))) := by
  intro fuel
  induction fuel with
  | zero =>
      intro st hst
      simp [s2Loop, goodTrace]
  | succ fuel ih =>
      intro st hst
      simp only [s2Loop]
      split
      case isTrue hr =>
          refine ⟨⟨trivial, trivial⟩, ?_, ?_⟩
          · intro e he
            simp only [List.mem_singleton] at he
            subst he; trivial
          · intro _
            simp only [List.any_cons, List.any_nil, S2Trace.isSkipped, Bool.or_false]
            rcases hst with h | h <;> simp [h]
      case isFalse hr =>
          cases hIter : s2Iter mem B E fp model cb st with
          | halt s tr =>
              simp only [hIter]
              obtain ⟨hG, hOk, hFin, _⟩ := s2Iter_halt_spec _ _ _ _ _ _ _ _ _ hIter
              refine ⟨hG, hOk, ?_⟩
              intro hfin
              rw [hFin] at hfin
              exact absurd hfin (by simp)
          | next st2 pre =>
              simp only [hIter]
              obtain ⟨hOk, hFin, hNeutral, hStatus⟩ :=
                s2Iter_next_spec _ _ _ _ _ _ _ _ _ hIter
              have hst2 : st2.status = .success ∨ st2.status = .dataformat := by
                rcases hStatus with ⟨h1, _⟩ | ⟨h1, _⟩
                · rw [h1]; exact hst
                · exact Or.inr h1
              obtain ⟨ihG, ihOk, ihIff⟩ := ih st2 hst2
              refine ⟨hNeutral _ _ ihG, ?_, ?_⟩
              · intro e he
                rcases List.mem_append.mp he with h1 | h1
                · exact hOk e h1
                · exact ihOk e h1
              · intro hfin
                rw [List.any_append, hFin, Bool.false_or] at hfin
                have ihP := ihIff hfin
                refine ⟨?_, ihP.2⟩
                rw [List.any_append]
                rcases hStatus with ⟨h1, h2⟩ | ⟨h1, h2⟩
                · rw [h2, Bool.false_or, ← h1]
                  exact ihP.1
                · rw [h2, Bool.true_or]
                  exact iff_of_true (ihP.1.mpr (Or.inl h1)) (Or.inr rfl)


/-- Lift of the loop invariant to `suunto_common2_device_foreach` (whose
traversal always starts with a cleared deferred-error latch). -/
theorem foreach_spec (B E : Nat) (mem : Nat → Nat) (model : Nat) (fp : List Nat)
    (cb : List Nat → List Nat → Bool) :
    goodTrace (suunto_common2_device_foreach B E mem model fp cb).1
        (suunto_common2_device_foreach B E mem model fp cb).2 ∧
    (∀ e ∈ (suunto_common2_device_foreach B E mem model fp cb).2, entryOk fp e) ∧
    ((suunto_common2_device_foreach B E mem model fp cb).2.any S2Trace.isFinished = true →
      (((suunto_common2_device_foreach B E mem model fp cb).1 = .dataformat ↔
        (suunto_common2_device_foreach B E mem model fp cb).2.any S2Trace.isSkipped = true) ∧
        ((suunto_common2_device_foreach B E mem model fp cb).1 = .success ∨
          (suunto_common2_device_foreach B E mem model fp cb).1 = .dataformat))) := by
  simp only [suunto_common2_device_foreach]
  split
  · exact ⟨trivial, fun e he => absurd he (List.not_mem_nil e), fun h => absurd h (by simp)⟩
  · obtain ⟨h1, h2, h3⟩ := s2Loop_spec mem B E fp model cb _
      ⟨_, _, _, _, _, _, _, .success⟩ (Or.inl rfl)
    exact ⟨h1, h2, fun hf => ⟨((h3 hf).1).trans (by simp), (h3 hf).2⟩⟩

/-- Claim C4 (confirmed): in the Family-B extractor, when the fingerprint
slice of a normally-linked dive matches the session's stored fingerprint,
the traversal stops immediately: the fingerprint-stop event is the last
event of the run (no callback is invoked for that dive nor for any older
dive), the matched slice equals the stored fingerprint, and the operation
returns success. -/
theorem claim_C4_fingerprint_stop (B E : Nat) (mem : Nat → Nat) (model : Nat)
    (fp : List Nat) (cb : List Nat → List Nat → Bool)
    (pre post : List S2Trace) (o a s : Nat) (fps : List Nat)
    (h : (suunto_common2_device_foreach B E mem model fp cb).2 =
        pre ++ S2Trace.fphit o a s fps :: post) :
    (suunto_common2_device_foreach B E mem model fp cb).1 = .success ∧
    post = [] ∧ fps = fp := by
  have hs := foreach_spec B E mem model fp cb
  have hg := hs.1
  rw [h] at hg
  have hsplit := goodTrace_split_fphit _ _ _ _ _ _ _ hg
  have hOk : entryOk fp (S2Trace.fphit o a s fps) := hs.2.1 _ (by rw [h]; simp)
  exact ⟨hsplit.2, hsplit.1, hOk⟩

/-- Witness for C4: on a one-dive device whose fingerprint slice
`[0x40..0x46]` equals the stored fingerprint, the traversal stops with
success right after the packet read, before any callback. -/
theorem claim_C4_fingerprint_stop_witness :
    (suunto_common2_device_foreach 0x100 0x140 cxB2mem 0x1A
        [0x40, 0x41, 0x42, 0x43, 0x44, 0x45, 0x46] (fun _ _ => true)).1 = .success ∧
    ([] : List S2Trace) = [] ∧
    [0x40, 0x41, 0x42, 0x43, 0x44, 0x45, 0x46] =
      [0x40, 0x41, 0x42, 0x43, 0x44, 0x45, 0x46] :=
  claim_C4_fingerprint_stop 0x100 0x140 cxB2mem 0x1A
    [0x40, 0x41, 0x42, 0x43, 0x44, 0x45, 0x46] (fun _ _ => true)
    [S2Trace.readPkt 0x120 0x20] [] 8 0 32
    [0x40, 0x41, 0x42, 0x43, 0x44, 0x45, 0x46] (by decide)

/-- Claim C5 (confirmed): when a Family-B traversal runs to normal
completion (the `finished` marker of the `while (remaining)` loop is
present), it returns the deferred `DC_STATUS_DATAFORMAT` exactly when some
self-linked (incomplete) dive was skipped, and returns success exactly
when no dive was skipped; a skipped dive produces a `skipped` event
instead of a callback and the traversal continues. -/
theorem claim_C5_incomplete_dive_latch (B E : Nat) (mem : Nat → Nat) (model : Nat)
    (fp : List Nat) (cb : List Nat → List Nat → Bool)
    (hfin : (suunto_common2_device_foreach B E mem model fp cb).2.any
        S2Trace.isFinished = true) :
    ((suunto_common2_device_foreach B E mem model fp cb).1 = .dataformat ↔
      (suunto_common2_device_foreach B E mem model fp cb).2.any
        S2Trace.isSkipped = true) ∧
    ((suunto_common2_device_foreach B E mem model fp cb).1 = .success ↔
      (suunto_common2_device_foreach B E mem model fp cb).2.any
        S2Trace.isSkipped = false) := by
  obtain ⟨hiff, hdisj⟩ := (foreach_spec B E mem model fp cb).2.2 hfin
  refine ⟨hiff, ?_, ?_⟩
  · intro hsucc
    cases hsk : (suunto_common2_device_foreach B E mem model fp cb).2.any
        S2Trace.isSkipped with
    | false => rfl
    | true =>
        have hdf := hiff.mpr hsk
        rw [hsucc] at hdf
        exact absurd hdf (by simp)
  · intro hsk
    rcases hdisj with h | h
    · exact h
    · exact absurd (hiff.mp h) (by simp [hsk])

/-- Witness for C5: a 3-dive device whose middle dive is self-linked: the
run completes, the middle dive is skipped (event index 2), the traversal
continues with the older dive (callback event index 3), and the deferred
`DC_STATUS_DATAFORMAT` is returned. -/
theorem claim_C5_incomplete_dive_latch_witness :
    (suunto_common2_device_foreach 0x100 0x160 cxB5mem 0x1A (List.replicate 7 0)
        (fun _ _ => true)).1 = .dataformat ∧
    ((suunto_common2_device_foreach 0x100 0x160 cxB5mem 0x1A (List.replicate 7 0)
        (fun _ _ => true)).2.getD 2 .finished).isSkipped = true ∧
    ((suunto_common2_device_foreach 0x100 0x160 cxB5mem 0x1A (List.replicate 7 0)
        (fun _ _ => true)).2.getD 3 .finished).isCalled = true :=
  ⟨(claim_C5_incomplete_dive_latch 0x100 0x160 cxB5mem 0x1A (List.replicate 7 0)
      (fun _ _ => true) (by decide)).1.mpr (by decide), by decide, by decide⟩

/-- The delivered dive byte arrays of `oceanic_atom2_read_dives` do not
depend on the callback (its return value is never inspected). -/
theorem aDiveLoop_fst_indep (mem logbooks : Nat → Nat) (cb cb2 : List Nat → Bool) :
    ∀ (n cur : Nat), (aDiveLoop mem logbooks cb n cur).map Prod.fst =
      (aDiveLoop mem logbooks cb2 n cur).map Prod.fst := by
  intro n
  induction n with
  | zero => intro cur; rfl
  | succ n ih =>
      intro cur
      simp only [aDiveLoop, List.map_cons]
      rw [ih]

/-- `oceanic_atom2_read_dives` always reports success in this model (reads
are modelled as successful and nothing else can fail). -/
theorem read_dives_status (mem : Nat → Nat) (cb : List Nat → Bool) :
    (oceanic_atom2_read_dives mem cb).1 = .success := by
  simp only [oceanic_atom2_read_dives]
  split <;> rfl

/-- The dive byte arrays delivered by `oceanic_atom2_read_dives` are the
same for any two callbacks. -/
theorem read_dives_fst_indep (mem : Nat → Nat) (cb cb2 : List Nat → Bool) :
    (oceanic_atom2_read_dives mem cb).2.map Prod.fst =
      (oceanic_atom2_read_dives mem cb2).2.map Prod.fst := by
  simp only [oceanic_atom2_read_dives]
  split
  · rfl
  · exact aDiveLoop_fst_indep mem _ cb cb2 _ _

/-- Claim C7 (corrected): in the Family-B extractor a callback returning
false ends the traversal (the event is the run's last, and the status is
success).  In the Family-A extractor, however, the callback's return value
is ignored: the operation always reports success and delivers exactly the
same dive byte arrays no matter what the callback returns. -/
theorem claim_C7_callback_cancellation :
    (∀ (B E : Nat) (mem : Nat → Nat) (model : Nat) (fp : List Nat)
        (cb : List Nat → List Nat → Bool) (pre post : List S2Trace)
        (o a s p n : Nat) (region dive fps : List Nat),
      (suunto_common2_device_foreach B E mem model fp cb).2 =
          pre ++ S2Trace.called o a s p n region dive fps false :: post →
      post = [] ∧ (suunto_common2_device_foreach B E mem model fp cb).1 = .success) ∧
    (∀ (mem : Nat → Nat) (cb cb2 : List Nat → Bool),
      (oceanic_atom2_read_dives mem cb).1 = .success ∧
      (oceanic_atom2_read_dives mem cb).2.map Prod.fst =
        (oceanic_atom2_read_dives mem cb2).2.map Prod.fst) := by
  constructor
  · intro B E mem model fp cb pre post o a s p n region dive fps h
    have hg := (foreach_spec B E mem model fp cb).1
    rw [h] at hg
    exact goodTrace_split_called_false _ _ _ _ _ _ _ _ _ _ _ hg
  · intro mem cb cb2
    exact ⟨read_dives_status mem cb, read_dives_fst_indep mem cb cb2⟩

/-- Counterexample for C7 as stated: on a two-dive Family-A device, a
callback that returns false on the very first dive is nevertheless invoked
a second time for the older dive (and the operation still reports
success), so returning false does not stop the Family-A traversal. -/
theorem claim_C7_counterexample :
    ((oceanic_atom2_read_dives cxAmem (fun _ => false)).2.getD 0 ([], true)).2
        = false ∧
    (oceanic_atom2_read_dives cxAmem (fun _ => false)).2.length = 2 ∧
    (oceanic_atom2_read_dives cxAmem (fun _ => false)).1 = .success := by
  decide

/-- Witness for C7 (amended): on a Family-B device the callback returning
false at the newest dive ends the run with success; and the Family-A
delivery for `cxAmem` is callback-independent. -/
theorem claim_C7_callback_cancellation_witness :
    (([] : List S2Trace) = [] ∧
      (suunto_common2_device_foreach 0x100 0x160 cxB4mem 0x1A
        (List.replicate 7 0) (fun _ _ => false)).1 = .success) ∧
    ((oceanic_atom2_read_dives cxAmem (fun _ => true)).1 = .success ∧
      (oceanic_atom2_read_dives cxAmem (fun _ => true)).2.map Prod.fst =
        (oceanic_atom2_read_dives cxAmem (fun _ => false)).2.map Prod.fst) :=
  ⟨claim_C7_callback_cancellation.1 0x100 0x160 cxB4mem 0x1A
      (List.replicate 7 0) (fun _ _ => false)
      [S2Trace.readPkt 0x100 0x60] [] 8 64 32 0x120 0x100
      ([0x20, 1, 0, 1] ++ List.replicate 17 0 ++
        [0x61, 0x62, 0x63, 0x64, 0x65, 0x66, 0x67] ++ [0, 0, 0, 0])
      (List.replicate 17 0 ++
        [0x61, 0x62, 0x63, 0x64, 0x65, 0x66, 0x67] ++ [0, 0, 0, 0])
      [0x61, 0x62, 0x63, 0x64, 0x65, 0x66, 0x67] (by decide),
   claim_C7_callback_cancellation.2 cxAmem (fun _ => true) (fun _ => false)⟩

/-- Claim C1 (corrected/amended): for every dive processed by the Family-B
traversal, the dive occupies `buffer[offset + available .. offset +
available + size)` (recorded as the `region` of its callback event), the
`prev` and `next` pointers are decoded little-endian from the FIRST four
bytes of that region, and the callback receives the region minus its first
four bytes — `buffer[offset + available + 4 .. offset + available + size)`
— of length `size − 4`. -/
theorem claim_C1_dive_slices (B E : Nat) (mem : Nat → Nat) (model : Nat)
    (fp : List Nat) (cb : List Nat → List Nat → Bool)
    (o a s p n : Nat) (region dive fps : List Nat) (b : Bool)
    (h : S2Trace.called o a s p n region dive fps b ∈
        (suunto_common2_device_foreach B E mem model fp cb).2) :
    4 ≤ s ∧ region.length = s ∧ dive = region.drop 4 ∧ dive.length = s - 4 ∧
    p = array_uint16_le (region.getD 0 0) (region.getD 1 0) ∧
    n = array_uint16_le (region.getD 2 0) (region.getD 3 0) := by
  have hOk := (foreach_spec B E mem model fp cb).2.1 _ h
  exact ⟨hOk.1, hOk.2.1, hOk.2.2.1, hOk.2.2.2.1, hOk.2.2.2.2.1, hOk.2.2.2.2.2.1⟩

/-- Counterexample for C1 as stated: a two-dive device where the newest
dive's packets straddle into the older dive.  Its callback event has
`available = 32 ≠ 0` (the dive does not sit at `buffer[offset ..]`), its
validated pointers are `prev = next = 0x100`, while the LAST four bytes of
the dive's 32-byte region are `0xAB 0xAB 0xAB 0xAB`, decoding to `0xABAB`
— outside `[0x100, 0x140)` — so the pointers cannot have been decoded (and
validated) from the last four bytes; the run still succeeds. -/
theorem claim_C1_counterexample :
    (suunto_common2_device_foreach 0x100 0x140 cxB1mem 0x1A (List.replicate 7 0)
        (fun _ _ => true)).1 = .success ∧
    ((suunto_common2_device_foreach 0x100 0x140 cxB1mem 0x1A (List.replicate 7 0)
        (fun _ _ => true)).2.getD 1 .finished).isCalled = true ∧
    ((suunto_common2_device_foreach 0x100 0x140 cxB1mem 0x1A (List.replicate 7 0)
        (fun _ _ => true)).2.getD 1 .finished).availableOf = 32 ∧
    ((suunto_common2_device_foreach 0x100 0x140 cxB1mem 0x1A (List.replicate 7 0)
        (fun _ _ => true)).2.getD 1 .finished).prevOf = 0x100 ∧
    ((suunto_common2_device_foreach 0x100 0x140 cxB1mem 0x1A (List.replicate 7 0)
        (fun _ _ => true)).2.getD 1 .finished).nextOf = 0x100 ∧
    ((suunto_common2_device_foreach 0x100 0x140 cxB1mem 0x1A (List.replicate 7 0)
        (fun _ _ => true)).2.getD 1 .finished).regionOf.length = 32 ∧
    array_uint16_le
      (((suunto_common2_device_foreach 0x100 0x140 cxB1mem 0x1A (List.replicate 7 0)
        (fun _ _ => true)).2.getD 1 .finished).regionOf.getD 28 0)
      (((suunto_common2_device_foreach 0x100 0x140 cxB1mem 0x1A (List.replicate 7 0)
        (fun _ _ => true)).2.getD 1 .finished).regionOf.getD 29 0) = 0xABAB ∧
    ¬(0xABAB < 0x140) := by
  decide

/-- Witness for C1 (amended), at the older dive of the straddling two-dive
device: its region, callback bytes and decoded pointers satisfy the
amended slice relations. -/
theorem claim_C1_dive_slices_witness :
    4 ≤ 32 ∧
    ([0x20, 1, 0x20, 1] ++ List.replicate 17 0 ++
      [0x50, 0x51, 0x52, 0x53, 0x54, 0x55, 0x56] ++ [0, 0, 0, 0] :
        List Nat).length = 32 ∧
    (List.replicate 17 0 ++ [0x50, 0x51, 0x52, 0x53, 0x54, 0x55, 0x56] ++
        [0, 0, 0, 0] : List Nat) =
      ([0x20, 1, 0x20, 1] ++ List.replicate 17 0 ++
        [0x50, 0x51, 0x52, 0x53, 0x54, 0x55, 0x56] ++ [0, 0, 0, 0]).drop 4 ∧
    (List.replicate 17 0 ++ [0x50, 0x51, 0x52, 0x53, 0x54, 0x55, 0x56] ++
        [0, 0, 0, 0] : List Nat).length = 32 - 4 ∧
    0x120 = array_uint16_le
      (([0x20, 1, 0x20, 1] ++ List.replicate 17 0 ++
        [0x50, 0x51, 0x52, 0x53, 0x54, 0x55, 0x56] ++ [0, 0, 0, 0]).getD 0 0)
      (([0x20, 1, 0x20, 1] ++ List.replicate 17 0 ++
        [0x50, 0x51, 0x52, 0x53, 0x54, 0x55, 0x56] ++ [0, 0, 0, 0]).getD 1 0) ∧
    0x120 = array_uint16_le
      (([0x20, 1, 0x20, 1] ++ List.replicate 17 0 ++
        [0x50, 0x51, 0x52, 0x53, 0x54, 0x55, 0x56] ++ [0, 0, 0, 0]).getD 2 0)
      (([0x20, 1, 0x20, 1] ++ List.replicate 17 0 ++
        [0x50, 0x51, 0x52, 0x53, 0x54, 0x55, 0x56] ++ [0, 0, 0, 0]).getD 3 0) :=
  claim_C1_dive_slices 0x100 0x140 cxB1mem 0x1A (List.replicate 7 0)
    (fun _ _ => true) 8 0 32 0x120 0x120
    ([0x20, 1, 0x20, 1] ++ List.replicate 17 0 ++
      [0x50, 0x51, 0x52, 0x53, 0x54, 0x55, 0x56] ++ [0, 0, 0, 0])
    (List.replicate 17 0 ++ [0x50, 0x51, 0x52, 0x53, 0x54, 0x55, 0x56] ++
      [0, 0, 0, 0])
    [0x50, 0x51, 0x52, 0x53, 0x54, 0x55, 0x56] true (by decide)


/-- Reading 8 bytes with `suunto_common2_device_read` issues a single
packet and returns exactly the addressed memory range. -/
theorem s2_read8_bytes (mem : Nat → Nat) (addr : Nat) :
    (suunto_common2_device_read mem addr 8).bytes = bufSlice mem addr 8 := by
  simp [suunto_common2_device_read, s2ReadLoop, SZ_PACKET]

/-- Claim C2 (corrected/amended): after reading the 8-byte header at
`0x0190`, the three 16-bit little-endian fields `last` (bytes 0–1), `end`
(bytes 4–5) and `begin` (bytes 6–7) are validated against
`[rb_profile_begin, rb_profile_end)`; if any of these three is out of
range, `suunto_common2_device_foreach` returns `DC_STATUS_DATAFORMAT`
before any callback (the `count` field, bytes 2–3, is NOT range-checked). -/
theorem claim_C2_header_validation (B E : Nat) (mem : Nat → Nat) (model : Nat)
    (fp : List Nat) (cb : List Nat → List Nat → Bool)
    (h : array_uint16_le (mem 0x190) (mem 0x191) < B ∨
        array_uint16_le (mem 0x190) (mem 0x191) ≥ E ∨
        array_uint16_le (mem 0x194) (mem 0x195) < B ∨
        array_uint16_le (mem 0x194) (mem 0x195) ≥ E ∨
        array_uint16_le (mem 0x196) (mem 0x197) < B ∨
        array_uint16_le (mem 0x196) (mem 0x197) ≥ E) :
    suunto_common2_device_foreach B E mem model fp cb = (.dataformat, []) := by
  have hb : ∀ i, i < 8 →
      (suunto_common2_device_read mem 0x0190 8).bytes.getD i 0 = mem (0x190 + i) := by
    intro i hi
    rw [s2_read8_bytes, bufSlice_getD _ _ _ _ hi]
  simp only [suunto_common2_device_foreach]
  rw [if_pos]
  rw [hb 0 (by omega), hb 1 (by omega), hb 4 (by omega), hb 5 (by omega),
    hb 6 (by omega), hb 7 (by omega)]
  simpa using h

/-- Counterexample for C2 as stated: a device whose header `count` field
decodes to 0 — outside the profile range `[0x100, 0x140)` — yet the
traversal succeeds and invokes a callback, so `count` is not validated. -/
theorem claim_C2_counterexample :
    array_uint16_le (cxB2mem 0x192) (cxB2mem 0x193) = 0 ∧ 0 < 0x100 ∧
    (suunto_common2_device_foreach 0x100 0x140 cxB2mem 0x1A (List.replicate 7 0)
        (fun _ _ => true)).1 = .success ∧
    (suunto_common2_device_foreach 0x100 0x140 cxB2mem 0x1A (List.replicate 7 0)
        (fun _ _ => true)).2.any S2Trace.isCalled = true := by
  decide

/-- Witness for C2 (amended): a header whose `end` field decodes to 0,
outside `[0x100, 0x140)`, makes the operation fail with
`DC_STATUS_DATAFORMAT` and no events (spec scenario S6). -/
theorem claim_C2_header_validation_witness :
    suunto_common2_device_foreach 0x100 0x140 cxB6mem 0x1A (List.replicate 7 0)
        (fun _ _ => true) = (.dataformat, []) :=
  claim_C2_header_validation 0x100 0x140 cxB6mem 0x1A (List.replicate 7 0)
    (fun _ _ => true) (by decide)

/-- Looking up a position covered by a `writeList` store returns the
stored byte. -/
theorem writeList_apply_in (f : Nat → Nat) (s : Nat) (bs : List Nat) (i : Nat)
    (h1 : s ≤ i) (h2 : i - s < bs.length) :
    writeList f s bs i = bs.getD (i - s) 0 := by
  simp only [writeList]
  rw [dif_pos ⟨h1, h2⟩, List.getD_eq_getElem _ _ h2, List.get_eq_getElem]

/-- A single-packet `oceanic_atom2_read_memory` stores exactly one
packet's worth of memory at the destination. -/
theorem atom2_read_one_packet (mem : Nat → Nat) (addr : Nat) (buf : Nat → Nat)
    (dst : Nat) :
    oceanic_atom2_read_memory mem addr buf dst OCEANIC_ATOM2_PACKET_SIZE =
      writeList buf (dst + 0) (bufSlice mem addr OCEANIC_ATOM2_PACKET_SIZE) := rfl

/-- The pointers block read at `0x0040` by `oceanic_atom2_read_dives`
returns the device memory at `0x0040 + k`. -/
theorem atom2_pointers_block (mem : Nat → Nat) (k : Nat) (hk : k < 16) :
    (bufSlice (oceanic_atom2_read_memory mem 0x0040 (fun _ => 0) 0
        OCEANIC_ATOM2_PACKET_SIZE) 0 OCEANIC_ATOM2_PACKET_SIZE).getD k 0 =
      mem (0x40 + k) := by
  rw [bufSlice_getD _ _ _ _ (by simpa [OCEANIC_ATOM2_PACKET_SIZE] using hk)]
  rw [atom2_read_one_packet]
  rw [writeList_apply_in _ _ _ _ (by omega)
    (by simp [bufSlice_length, OCEANIC_ATOM2_PACKET_SIZE]; omega)]
  rw [bufSlice_getD _ _ _ _ (by simp [OCEANIC_ATOM2_PACKET_SIZE]; omega)]
  congr 1
  omega

/-- `aDiveLoop` performs exactly one callback per logbook entry. -/
theorem aDiveLoop_length (mem logbooks : Nat → Nat) (cb : List Nat → Bool) :
    ∀ (n cur : Nat), (aDiveLoop mem logbooks cb n cur).length = n := by
  intro n
  induction n with
  | zero => intro cur; rfl
  | succ n ih =>
      intro cur
      simp only [aDiveLoop, List.length_cons]
      rw [ih]

/-- Claim C6 (confirmed): `oceanic_atom2_read_dives` returns success with
zero callbacks when both logbook pointers decode to the empty sentinel
`0x0230`; otherwise it returns success after exactly
`ringbuffer_distance(first, last, logbook_begin, logbook_end) /
(packet_size/2) + 1` callbacks (in particular, `first == last` with a
non-sentinel value yields exactly one callback, since the two-argument
distance of equal pointers is 0). -/
theorem claim_C6_logbook_count (mem : Nat → Nat) (cb : List Nat → Bool) :
    (mem 0x44 + mem 0x45 * 256 = RB_LOGBOOK_EMPTY ∧
        mem 0x46 + mem 0x47 * 256 = RB_LOGBOOK_EMPTY →
      oceanic_atom2_read_dives mem cb = (.success, [])) ∧
    (¬(mem 0x44 + mem 0x45 * 256 = RB_LOGBOOK_EMPTY ∧
        mem 0x46 + mem 0x47 * 256 = RB_LOGBOOK_EMPTY) →
      (oceanic_atom2_read_dives mem cb).1 = .success ∧
      (oceanic_atom2_read_dives mem cb).2.length =
        ringbuffer_distance (mem 0x44 + mem 0x45 * 256)
          (mem 0x46 + mem 0x47 * 256) false RB_LOGBOOK_BEGIN RB_LOGBOOK_END /
          (OCEANIC_ATOM2_PACKET_SIZE / 2) + 1) := by
  have h4 : (bufSlice (oceanic_atom2_read_memory mem 0x0040 (fun _ => 0) 0
      OCEANIC_ATOM2_PACKET_SIZE) 0 OCEANIC_ATOM2_PACKET_SIZE).getD 4 0 = mem 0x44 := by
    rw [atom2_pointers_block mem 4 (by omega)]
  have h5 : (bufSlice (oceanic_atom2_read_memory mem 0x0040 (fun _ => 0) 0
      OCEANIC_ATOM2_PACKET_SIZE) 0 OCEANIC_ATOM2_PACKET_SIZE).getD 5 0 = mem 0x45 := by
    rw [atom2_pointers_block mem 5 (by omega)]
  have h6 : (bufSlice (oceanic_atom2_read_memory mem 0x0040 (fun _ => 0) 0
      OCEANIC_ATOM2_PACKET_SIZE) 0 OCEANIC_ATOM2_PACKET_SIZE).getD 6 0 = mem 0x46 := by
    rw [atom2_pointers_block mem 6 (by omega)]
  have h7 : (bufSlice (oceanic_atom2_read_memory mem 0x0040 (fun _ => 0) 0
      OCEANIC_ATOM2_PACKET_SIZE) 0 OCEANIC_ATOM2_PACKET_SIZE).getD 7 0 = mem 0x47 := by
    rw [atom2_pointers_block mem 7 (by omega)]
  constructor
  · intro h
    simp only [oceanic_atom2_read_dives, h4, h5, h6, h7]
    rw [if_pos h]
  · intro h
    simp only [oceanic_atom2_read_dives, h4, h5, h6, h7]
    rw [if_neg h]
    exact ⟨rfl, aDiveLoop_length _ _ _ _ _⟩

/-- Witness for C6: the empty-sentinel device yields success with no
callbacks; the two-entry device yields exactly
`distance(0x0240, 0x0248) / 8 + 1 = 2` callbacks. -/
theorem claim_C6_logbook_count_witness :
    oceanic_atom2_read_dives cxAemptyMem (fun _ => true) = (.success, []) ∧
    (oceanic_atom2_read_dives cxAmem (fun _ => true)).2.length =
      ringbuffer_distance (cxAmem 0x44 + cxAmem 0x45 * 256)
        (cxAmem 0x46 + cxAmem 0x47 * 256) false RB_LOGBOOK_BEGIN RB_LOGBOOK_END /
        (OCEANIC_ATOM2_PACKET_SIZE / 2) + 1 :=
  ⟨(claim_C6_logbook_count cxAemptyMem (fun _ => true)).1 (by decide),
   ((claim_C6_logbook_count cxAmem (fun _ => true)).2 (by decide)).2⟩


/-- Claim C3 (corrected/amended): the Family-B transfer retries a command
whose packet exchange reports `TIMEOUT` or `PROTOCOL` up to
`MAXRETRIES = 2` times (three attempts total), fails immediately on any
other error (including `IO`), and returns the last error when the retries
are exhausted.  The Family-A transfer retries only short reads (timeouts)
up to `MAXRETRIES = 2` times, fails immediately on an I/O error
(`read == -1`), and — unlike the claim — returns a `ProtocolError`
(header or checksum mismatch) immediately without any retry; exhausted
retries surface `OCEANIC_ERROR_TIMEOUT`. -/
theorem claim_C3_transfer_retry :
    (∀ pk : Nat → DcStatus,
      (pk 0 = .success → suunto_common2_transfer pk = (.success, 1)) ∧
      (¬s2Retryable (pk 0) → pk 0 ≠ .success →
        suunto_common2_transfer pk = (pk 0, 1)) ∧
      (s2Retryable (pk 0) → pk 1 = .success →
        suunto_common2_transfer pk = (.success, 2)) ∧
      (s2Retryable (pk 0) → s2Retryable (pk 1) → pk 2 = .success →
        suunto_common2_transfer pk = (.success, 3)) ∧
      (s2Retryable (pk 0) → s2Retryable (pk 1) → s2Retryable (pk 2) →
        suunto_common2_transfer pk = (pk 2, 3))) ∧
    (∀ (att : Nat → AtomAttempt) (asize : Nat) (hs : Bool),
      (att 0 = .ioFailure →
        oceanic_atom2_transfer att asize hs = (.errorInputOutput, 1)) ∧
      (∀ answer, att 0 = .full answer →
        answer 0 ≠ (if hs then 0xA5 else 0x5A) →
        oceanic_atom2_transfer att asize hs = (.errorProtocol, 1)) ∧
      (∀ n0 n1 n2, att 0 = .shortRead n0 → att 1 = .shortRead n1 →
        att 2 = .shortRead n2 →
        oceanic_atom2_transfer att asize hs = (.errorTimeout, 3)) ∧
      (∀ n0 answer, att 0 = .shortRead n0 → att 1 = .full answer →
        answer 0 = (if hs then 0xA5 else 0x5A) →
        answer (asize - 1) = oceanic_atom2_checksum
          ((List.range (asize - 2)).map (fun j => answer (1 + j))) 0x00 →
        oceanic_atom2_transfer att asize hs = (.success, 2))) := by
  constructor
  · intro pk
    refine ⟨?_, ?_, ?_, ?_, ?_⟩
    · intro h0
      simp [suunto_common2_transfer, suunto_common2_transfer_go, MAXRETRIES, h0]
    · intro hr h0
      rcases hne : pk 0 with _ | _ | _ | _ | _ | _ | _ | _ <;>
        simp [s2Retryable, hne] at hr h0 ⊢ <;>
        simp [suunto_common2_transfer, suunto_common2_transfer_go, MAXRETRIES, hne]
    · intro hr h1
      rcases hr with h0 | h0 <;>
        simp [suunto_common2_transfer, suunto_common2_transfer_go, MAXRETRIES, h0, h1]
    · intro hr0 hr1 h2
      rcases hr0 with h0 | h0 <;> rcases hr1 with h1 | h1 <;>
        simp [suunto_common2_transfer, suunto_common2_transfer_go, MAXRETRIES,
          h0, h1, h2]
    · intro hr0 hr1 hr2
      rcases hr0 with h0 | h0 <;> rcases hr1 with h1 | h1 <;>
        rcases hr2 with h2 | h2 <;>
        simp [suunto_common2_transfer, suunto_common2_transfer_go, MAXRETRIES,
          h0, h1, h2]
  · intro att asize hs
    refine ⟨?_, ?_, ?_, ?_⟩
    · intro h0
      simp [oceanic_atom2_transfer, oceanic_atom2_transfer_go, h0]
    · intro answer h0 hh
      simp [oceanic_atom2_transfer, oceanic_atom2_transfer_go, h0, hh]
    · intro n0 n1 n2 h0 h1 h2
      simp [oceanic_atom2_transfer, oceanic_atom2_transfer_go, MAXRETRIES,
        h0, h1, h2]
    · intro n0 answer h0 h1 hh hc
      simp [oceanic_atom2_transfer, oceanic_atom2_transfer_go, MAXRETRIES,
        h0, h1, hh, hc]

/-- Counterexample for C3 as stated: a Family-A exchange whose first
attempt yields a full answer with a wrong header byte (a protocol error)
returns `OCEANIC_ERROR_PROTOCOL` after a single attempt — no retry — even
though the second and later attempts would have produced a fully valid
answer (as the second conjunct shows). -/
theorem claim_C3_counterexample :
    oceanic_atom2_transfer c3att 3 false = (.errorProtocol, 1) ∧
    oceanic_atom2_transfer (fun _ => c3att 1) 3 false = (.success, 1) := by
  decide

/-- Witness for C3 (amended): a Family-B exchange that times out once and
then succeeds is retried and reports success after two attempts; a
Family-A exchange whose first read fails with an I/O error fails
immediately. -/
theorem claim_C3_transfer_retry_witness :
    suunto_common2_transfer (fun i => if i = 0 then .timeout else .success) =
      (.success, 2) ∧
    oceanic_atom2_transfer (fun _ => .ioFailure) 3 false =
      (.errorInputOutput, 1) :=
  ⟨(claim_C3_transfer_retry.1 (fun i => if i = 0 then .timeout else .success)).2.2.1
      (by decide) (by decide),
   (claim_C3_transfer_retry.2 (fun _ => .ioFailure) 3 false).1 rfl⟩

/-- Chunk count of the `suunto_common2_device_read` loop. -/
theorem s2ReadLoop_len (mem : Nat → Nat) :
    ∀ (fuel address nbytes size : Nat), size - nbytes ≤ fuel →
      (s2ReadLoop mem fuel address nbytes size).cmds.length =
        (size - nbytes + SZ_PACKET - 1) / SZ_PACKET := by
  intro fuel
  induction fuel with
  | zero =>
      intro address nbytes size h
      simp only [s2ReadLoop, List.length_nil, SZ_PACKET]
      omega
  | succ fuel ih =>
      intro address nbytes size h
      simp only [s2ReadLoop]
      split
      case isTrue hlt =>
          simp only [List.length_cons]
          rw [ih (address + if size - nbytes > SZ_PACKET then SZ_PACKET else size - nbytes)
            (nbytes + if size - nbytes > SZ_PACKET then SZ_PACKET else size - nbytes)
            size (by simp only [SZ_PACKET] at *; split <;> omega)]
          simp only [SZ_PACKET]
          split <;> omega
      case isFalse hge =>
          simp only [List.length_nil, SZ_PACKET]
          omega

/-- Per-chunk command contents of the `suunto_common2_device_read` loop:
the `i`-th command reads `min SZ_PACKET (size − nbytes − SZ_PACKET·i)`
bytes at `address + SZ_PACKET·i`. -/
theorem s2ReadLoop_cmds (mem : Nat → Nat) :
    ∀ (fuel address nbytes size : Nat), size - nbytes ≤ fuel →
      ∀ i, (s2ReadLoop mem fuel address nbytes size).cmds.getD i (0, 0) =
        if SZ_PACKET * i < size - nbytes then
          (address + SZ_PACKET * i, min SZ_PACKET (size - nbytes - SZ_PACKET * i))
        else (0, 0) := by
  intro fuel
  induction fuel with
  | zero =>
      intro address nbytes size h i
      simp only [s2ReadLoop]
      rw [if_neg (show ¬(SZ_PACKET * i < size - nbytes) from by
        simp only [SZ_PACKET]; omega)]
      simp [List.getD]
  | succ fuel ih =>
      intro address nbytes size h i
      simp only [s2ReadLoop]
      split
      case isTrue hlt =>
          cases i with
          | zero =>
              rw [List.getD_cons_zero,
                if_pos (show SZ_PACKET * 0 < size - nbytes from by
                  simp only [SZ_PACKET]; omega)]
              simp only [SZ_PACKET, Nat.min_def, Prod.mk.injEq]
              refine ⟨by omega, by split <;> split <;> omega⟩
          | succ i =>
              rw [List.getD_cons_succ,
                ih (address + if size - nbytes > SZ_PACKET then SZ_PACKET
                    else size - nbytes)
                  (nbytes + if size - nbytes > SZ_PACKET then SZ_PACKET
                    else size - nbytes)
                  size (by simp only [SZ_PACKET] at *; split <;> omega) i]
              generalize hL : (if size - nbytes > SZ_PACKET then SZ_PACKET
                else size - nbytes) = L
              have hl : (size - nbytes > SZ_PACKET ∧ L = SZ_PACKET) ∨
                  (¬(size - nbytes > SZ_PACKET) ∧ L = size - nbytes) := by
                rw [← hL]
                split
                · exact Or.inl ⟨‹_›, rfl⟩
                · exact Or.inr ⟨‹_›, rfl⟩
              rcases hl with ⟨hgt, rfl⟩ | ⟨hle, rfl⟩
              · by_cases hc : SZ_PACKET * i < size - (nbytes + SZ_PACKET)
                · rw [if_pos hc,
                    if_pos (show SZ_PACKET * (i + 1) < size - nbytes from by
                      simp only [SZ_PACKET] at *; omega)]
                  simp only [SZ_PACKET, Nat.min_def, Prod.mk.injEq]
                  refine ⟨by omega, by split <;> split <;>
                    simp only [SZ_PACKET] at *  <;> omega⟩
                · rw [if_neg hc,
                    if_neg (show ¬(SZ_PACKET * (i + 1) < size - nbytes) from by
                      simp only [SZ_PACKET] at *; omega)]
              · rw [if_neg (show ¬(SZ_PACKET * i <
                      size - (nbytes + (size - nbytes))) from by
                    simp only [SZ_PACKET] at *; omega),
                  if_neg (show ¬(SZ_PACKET * (i + 1) < size - nbytes) from by
                    simp only [SZ_PACKET] at *; omega)]
      case isFalse hge =>
          rw [if_neg (show ¬(SZ_PACKET * (i : Nat) < size - nbytes) from by
            simp only [SZ_PACKET]; omega)]
          simp [List.getD]

/-- Claim C8 (corrected/amended): `suunto_common2_device_read` splits a
read into `ceil(size / SZ_PACKET)` chunks, the `i`-th requesting exactly
`min SZ_PACKET (size − SZ_PACKET·i)` bytes at `address + SZ_PACKET·i`,
with no `min_read` padding of short chunks; the `min_read` compensation is
instead performed by the `foreach` extractor's packet loop, every one of
whose issued reads requests at least `SZ_MINIMUM` bytes. -/
theorem claim_C8_read_chunking :
    (∀ (mem : Nat → Nat) (address size : Nat),
      (suunto_common2_device_read mem address size).cmds.length =
        (size + SZ_PACKET - 1) / SZ_PACKET ∧
      (∀ i, (suunto_common2_device_read mem address size).cmds.getD i (0, 0) =
        if SZ_PACKET * i < size then
          (address + SZ_PACKET * i, min SZ_PACKET (size - SZ_PACKET * i))
        else (0, 0))) ∧
    (∀ (B E : Nat) (mem : Nat → Nat) (model : Nat) (fp : List Nat)
        (cb : List Nat → List Nat → Bool) (a n : Nat),
      S2Trace.readPkt a n ∈ (suunto_common2_device_foreach B E mem model fp cb).2 →
      SZ_MINIMUM ≤ n) := by
  constructor
  · intro mem address size
    constructor
    · have := s2ReadLoop_len mem size address 0 size (by omega)
      simpa using this
    · intro i
      have := s2ReadLoop_cmds mem size address 0 size (by omega) i
      simpa using this
  · intro B E mem model fp cb a n h
    exact (foreach_spec B E mem model fp cb).2.1 _ h

/-- Counterexample for C8 as stated: a 3-byte read — shorter than
`min_read = 8` — issues exactly one command requesting 3 bytes at the
given address, not 8 bytes at `address − 5` as the claim requires. -/
theorem claim_C8_counterexample :
    (suunto_common2_device_read (fun _ => 0) 0x100 3).cmds = [(0x100, 3)] ∧
    (suunto_common2_device_read (fun _ => 0) 0x100 3).cmds ≠
      [(0x100 - (SZ_MINIMUM - 3), SZ_MINIMUM)] := by
  decide

/-- Witness for C8 (amended): a 250-byte read is split into 3 chunks of
120, 120 and 10 bytes at consecutive addresses (the third chunk shown
explicitly); and the `foreach` packet read of the one-dive device requests
`0x20 ≥ SZ_MINIMUM` bytes. -/
theorem claim_C8_read_chunking_witness :
    (suunto_common2_device_read (fun _ => 0) 0x100 250).cmds.length =
      (250 + SZ_PACKET - 1) / SZ_PACKET ∧
    ((suunto_common2_device_read (fun _ => 0) 0x100 250).cmds.getD 2 (0, 0) =
      if SZ_PACKET * 2 < 250 then
        (0x100 + SZ_PACKET * 2, min SZ_PACKET (250 - SZ_PACKET * 2))
      else (0, 0)) ∧
    SZ_MINIMUM ≤ 0x20 :=
  ⟨(claim_C8_read_chunking.1 (fun _ => 0) 0x100 250).1,
   (claim_C8_read_chunking.1 (fun _ => 0) 0x100 250).2 2,
   claim_C8_read_chunking.2 0x100 0x140 cxB2mem 0x1A (List.replicate 7 0)
     (fun _ _ => true) 0x120 0x20 (by decide)⟩

/-- Claim C9 (confirmed in exact arithmetic): whenever the GASMIX decode
of `uwatec_memomouse_parser_get_field` succeeds, the returned mix
satisfies `oxygen + helium + nitrogen = 1` with `helium = 0`, across all
three oxygen encodings and for inputs too short to carry an oxygen byte
(the C arithmetic is on doubles; the model computes in `ℚ`). -/
theorem claim_C9_gasmix_sum (data : Nat → Nat) (size : Nat) (mix : Gasmix)
    (h : uwatec_memomouse_parser_get_field_gasmix data size = some mix) :
    mix.oxygen + mix.helium + mix.nitrogen = 1 ∧ mix.helium = 0 := by
  unfold uwatec_memomouse_parser_get_field_gasmix at h
  split at h
  · exact absurd h (by simp)
  · simp only [Option.some.injEq] at h
    subst h
    constructor
    · simp only []
      ring
    · rfl

/-- Witness for C9: the all-zero 18-byte input decodes to the fixed-21%
mix, whose components sum to 1. -/
theorem claim_C9_gasmix_sum_witness :
    (Gasmix.mk (21 / 100) 0 (1 - 21 / 100 - 0)).oxygen +
        (Gasmix.mk (21 / 100) 0 (1 - 21 / 100 - 0)).helium +
        (Gasmix.mk (21 / 100) 0 (1 - 21 / 100 - 0)).nitrogen = 1 ∧
      (Gasmix.mk (21 / 100) 0 (1 - 21 / 100 - 0)).helium = 0 :=
  claim_C9_gasmix_sum (fun _ => 0) 18 ⟨21 / 100, 0, 1 - 21 / 100 - 0⟩ rfl

/-- Claim C10 (confirmed): `suunto_common2_device_set_fingerprint` resets
the stored fingerprint to zero bytes on `size = 0`, copies the given bytes
on `size` equal to the fingerprint width, and rejects any other nonzero
`size` with `DC_STATUS_INVALIDARGS`, leaving the stored fingerprint
unchanged. -/
theorem claim_C10_set_fingerprint (fpSize : Nat) (stored : List Nat)
    (data : Nat → Nat) (size : Nat) :
    (size = 0 →
      suunto_common2_device_set_fingerprint fpSize stored data size =
        (.success, List.replicate fpSize 0)) ∧
    (size = fpSize → size ≠ 0 →
      suunto_common2_device_set_fingerprint fpSize stored data size =
        (.success, bufSlice data 0 fpSize)) ∧
    (size ≠ 0 → size ≠ fpSize →
      suunto_common2_device_set_fingerprint fpSize stored data size =
        (.invalidargs, stored)) := by
  refine ⟨fun h => ?_, fun h h0 => ?_, fun h0 hne => ?_⟩
  · simp [suunto_common2_device_set_fingerprint, h]
  · subst h
    simp [suunto_common2_device_set_fingerprint, h0]
  · simp [suunto_common2_device_set_fingerprint, h0, hne]

/-- Witness for C10: the three behaviours at width 7. -/
theorem claim_C10_set_fingerprint_witness :
    suunto_common2_device_set_fingerprint 7 [1, 2, 3, 4, 5, 6, 7]
        (fun i => i + 10) 0 = (.success, List.replicate 7 0) ∧
    suunto_common2_device_set_fingerprint 7 [1, 2, 3, 4, 5, 6, 7]
        (fun i => i + 10) 7 = (.success, bufSlice (fun i => i + 10) 0 7) ∧
    suunto_common2_device_set_fingerprint 7 [1, 2, 3, 4, 5, 6, 7]
        (fun i => i + 10) 3 = (.invalidargs, [1, 2, 3, 4, 5, 6, 7]) :=
  ⟨(claim_C10_set_fingerprint 7 [1, 2, 3, 4, 5, 6, 7] (fun i => i + 10) 0).1 rfl,
   (claim_C10_set_fingerprint 7 [1, 2, 3, 4, 5, 6, 7] (fun i => i + 10) 7).2.1
     rfl (by decide),
   (claim_C10_set_fingerprint 7 [1, 2, 3, 4, 5, 6, 7] (fun i => i + 10) 3).2.2
     (by decide) (by decide)⟩


end Divecomputer
